import Mathlib

/-!
Verification of the BRD_DATAMODEL repository against its natural-language
specification.

The development shallowly embeds the parts of the source that the claims
speak about:

* `src/tests/test_data_model.py`, `validate_data_model_structure` (the Schema
  Validator) — embedded over an inductive `Json` type; the error strings the
  Python code appends are represented by the structured type `VError`, one
  constructor per distinct f-string in the source, carrying exactly the data
  the f-string interpolates.
* `src/generators.py`, `generate_drawio` (the Layout Engine) — embedded as a
  pure function from a typed `DataModel` to a `DrawioDoc`, a list of cells in
  emission order.  Every mxCell the Python code appends to the XML root is one
  `Cell` here, with the same id counter, coordinates and emission order.
* `src/generators.py`, `generate_html_report` and `get_summary_stats` — the
  Report Renderer, embedded as a structured document.
* `src/generate_data_model_report.py`, `analyze_entity` — the field
  categorisation branch.
* `src/cursor_workflow.py`, `parse_cursor_response` — the markdown fence
  stripping, embedded over `List Char` with Python string semantics.
-/

namespace BRD

/- ============================================================ -/
/- JSON values, as decoded by Python's json.loads               -/
/- ============================================================ -/

/-- A decoded JSON value.  Objects are association lists; Python dicts have
unique keys, and `lookup` below returns the first binding, which coincides
with dict lookup on unique-key lists. -/
inductive Json where
  | null
  | bool (b : Bool)
  | num (n : Int)
  | str (s : String)
  | arr (xs : List Json)
  | obj (kvs : List (String × Json))

/-- Key lookup in a JSON object: Python `d[k]` / `k in d`. -/
def jlookup (k : String) : List (String × Json) → Option Json
  | [] => none
  | (k', v) :: rest => if k' = k then some v else jlookup k rest

/-- Python `d.get(k, default)`. -/
def jget (kvs : List (String × Json)) (k : String) (dflt : Json) : Json :=
  (jlookup k kvs).getD dflt

/-- Python `k in d`. -/
def jhas (kvs : List (String × Json)) (k : String) : Bool :=
  (jlookup k kvs).isSome

/- ============================================================ -/
/- Schema Validator                                             -/
/- (test_data_model.py, validate_data_model_structure)          -/
/- ============================================================ -/

/-- Structured representation of the error strings appended by
`validate_data_model_structure`.  Each constructor corresponds to one
`errors.append(...)` site in the source and carries the values the message
interpolates (entity index, field index, key name, offending type value). -/
inductive VError where
  | notDict
  | missingEntitiesKey
  | missingRelationshipsKey
  | entitiesNotList
  | entityNotDict (i : Nat)
  | entityMissingField (i : Nat) (field : String)
  | entityInvalidType (i : Nat) (t : Json)
  | entityFieldsNotList (i : Nat)
  | fieldNotDict (i j : Nat)
  | fieldMissingProp (i j : Nat) (prop : String)
  | fieldReqIdsNotList (i j : Nat)
  | fieldSourceReqsNotList (i j : Nat)
  | relationshipsNotList
  | relNotDict (i : Nat)
  | relMissingField (i : Nat) (field : String)

/-- Python's `entity_type not in ["BusinessEntity", "ReferenceEntity"]`,
negated.  A non-string JSON value never equals either string literal. -/
def isValidEntityType : Json → Bool
  | .str s => s = "BusinessEntity" || s = "ReferenceEntity"
  | _ => false

/-- Like Python's `enumerate` driving `errors.append` in a loop: concatenates
the per-element error lists in index order. -/
def withIdx (f : Nat → α → List β) : Nat → List α → List β
  | _, [] => []
  | i, x :: xs => f i x ++ withIdx f (i + 1) xs

/-- Source lines 70-84: checks on one field of entity `i`. -/
def checkField (i j : Nat) (f : Json) : List VError :=
  match f with
  | .obj kvs =>
      (["name", "dataType", "requirementIds", "sourceRequirements"].filterMap
        fun p => if jhas kvs p then none else some (.fieldMissingProp i j p))
      ++ (match jget kvs "requirementIds" (.arr []) with
          | .arr _ => []
          | _ => [.fieldReqIdsNotList i j])
      ++ (match jget kvs "sourceRequirements" (.arr []) with
          | .arr _ => []
          | _ => [.fieldSourceReqsNotList i j])
  | _ => [.fieldNotDict i j]

/-- Source lines 44-84: checks on one entity.  When the entity is not a dict
the Python loop records one error and `continue`s. -/
def checkEntity (i : Nat) (e : Json) : List VError :=
  match e with
  | .obj kvs =>
      (["name", "type", "description", "fields"].filterMap
        fun f => if jhas kvs f then none else some (.entityMissingField i f))
      ++ (if isValidEntityType (jget kvs "type" (.str ""))
          then [] else [.entityInvalidType i (jget kvs "type" (.str ""))])
      ++ (match jget kvs "fields" (.arr []) with
          | .arr fs => withIdx (checkField i) 0 fs
          | _ => [.entityFieldsNotList i])
  | _ => [.entityNotDict i]

/-- Source lines 91-100: checks on one relationship. -/
def checkRel (i : Nat) (r : Json) : List VError :=
  match r with
  | .obj kvs =>
      ["fromEntity", "toEntity", "relationshipType"].filterMap
        fun f => if jhas kvs f then none else some (.relMissingField i f)
  | _ => [.relNotDict i]

/-- Source lines 34-37: required top-level keys. -/
def topLevelKeyErrors (kvs : List (String × Json)) : List VError :=
  (if jhas kvs "entities" then [] else [.missingEntitiesKey])
  ++ (if jhas kvs "relationships" then [] else [.missingRelationshipsKey])

/-- Source lines 40-84: the entities section.  `data_model.get("entities", [])`
defaults to an (empty) list, so a missing key contributes no error here. -/
def entitiesSectionErrors (kvs : List (String × Json)) : List VError :=
  match jget kvs "entities" (.arr []) with
  | .arr es => withIdx checkEntity 0 es
  | _ => [.entitiesNotList]

/-- Source lines 87-100: the relationships section. -/
def relationshipsSectionErrors (kvs : List (String × Json)) : List VError :=
  match jget kvs "relationships" (.arr []) with
  | .arr rs => withIdx checkRel 0 rs
  | _ => [.relationshipsNotList]

/-- `validate_data_model_structure(data_model) -> (is_valid, errors)`.
The function is total: the Python body only uses `isinstance` tests and
`.get` with defaults, so no input can raise; the embedding is a plain Lean
function for the same reason.  A non-dict input records one error and
returns immediately (source lines 29-31); for a dict the four sections each
append their errors in source order and `is_valid = len(errors) == 0`. -/
def validate_data_model_structure (j : Json) : Bool × List VError :=
  match j with
  | .obj kvs =>
      let errors := topLevelKeyErrors kvs ++ entitiesSectionErrors kvs
        ++ relationshipsSectionErrors kvs
      (errors.length == 0, errors)
  | _ => (false, [.notDict])

/- ============================================================ -/
/- Typed data model, as read by the generators                  -/
/- ============================================================ -/

/-- Contiguous-subsequence test on character lists, by sliding a prefix
check along the list. -/
def hasInfixAux (needle : List Char) : List Char → Bool
  | [] => needle.isPrefixOf []
  | c :: rest => needle.isPrefixOf (c :: rest) || hasInfixAux needle rest

/-- Substring containment: Python's `needle in haystack` on strings. -/
def hasSub (haystack needle : String) : Bool :=
  hasInfixAux needle.data haystack.data

/-- Python `str.lower()`, character by character (the names the source
lowers are ASCII). -/
def pyLower (s : String) : String :=
  String.mk (s.data.map Char.toLower)

/-- A field record, carrying exactly the attributes the generators read
(`field.get(...)` accesses in generators.py and the report scripts).
`fieldGroup := none` plays the role of an absent or null `fieldGroup` key;
`some ""` is Python's falsy empty string, which the generators treat like
an absent group. -/
structure Field where
  name : String := "field"
  dataType : String := "N/A"
  fieldGroup : Option String := none
  isCustom : Bool := false
  isRequired : Bool := false
  isLookup : Bool := false
  lookupEntity : String := ""
  description : String := ""
  requirementIds : List String := []
  sourceRequirements : List String := []
  deriving DecidableEq

/-- An entity record, with the attributes read by the generators. -/
structure Entity where
  name : String := "Entity"
  type : String := "BusinessEntity"
  description : String := ""
  fields : List Field := []
  deriving DecidableEq

/-- A relationship record, as read by `generate_html_report`. -/
structure Relationship where
  fromEntity : String := ""
  toEntity : String := ""
  relationshipType : String := ""
  deriving DecidableEq

/-- The parsed data model dictionary: `dataModel.entities`,
`dataModel.relationships`, plus the `metadata` mapping and the reasoning
summary text that `generate_html_report` interpolates.  (The per-entity and
per-field reasoning decision lists only feed free-text blocks of the HTML
report and are not modelled.) -/
structure DataModel where
  entities : List Entity := []
  relationships : List Relationship := []
  metadata : List (String × String) := []
  reasoningSummary : String := ""
  deriving DecidableEq

/- ============================================================ -/
/- Layout Engine (generators.py, generate_drawio)               -/
/- ============================================================ -/

/-- Layout constants from generators.py lines 40-66. -/
def ENTITY_X : Int := -101
def ENTITY_Y_START : Int := 127
def ENTITY_WIDTH : Int := 90
def ENTITY_HEIGHT : Int := 20
def FIELD_X : Int := -27
def FIELD_WIDTH : Int := 166
def FIELD_HEIGHT : Int := 20
def FIELD_Y_START : Int := 165
def FIELD_SPACING : Int := 28
def FIELD_GROUP_X : Int := -29
def FIELD_GROUP_WIDTH : Int := 158
def EXPANDED_X : Int := 175
def EXPANDED_WIDTH : Int := 146
def LOOKUP_ICON_SIZE : Int := 17
def CONTAINER_X : Int := -121
def CONTAINER_Y : Int := 80
def LABEL_PADDING : Int := 15
def LABEL_GAP : Int := 12
def LABEL_HEIGHT : Int := 20

/-- The entries of the COLORS table (generators.py lines 71-76), plus the
styles of the container, the lookup icon and the legend labels.  A `Style`
value stands for the fill/stroke/font colour triple the source writes into
the style string. -/
inductive Style where
  | businessEntity
  | generalAttribute
  | identifier
  | fieldGroup
  | plain
  | icon
  deriving DecidableEq

/-- `get_field_style` (generators.py lines 89-103): custom fields are red,
then meta-group fields and identifier-looking names are red, everything
else green. -/
def get_field_style (f : Field) : Style :=
  if f.isCustom then .identifier
  else if f.fieldGroup = some "_meta"
      || hasSub (pyLower f.name) "id"
      || hasSub (pyLower f.name) "pidm"
      || hasSub (pyLower f.name) "cwid" then .identifier
  else .generalAttribute

/-- The grouping decision used throughout `generate_drawio`
(`if fg and fg != '_meta'`, lines 313-319): `some g` when the field belongs
to a drawn field group, `none` when it is standalone (no group, empty-string
group, or the `_meta` group). -/
def groupLabel (f : Field) : Option String :=
  match f.fieldGroup with
  | some g => if g = "" || g = "_meta" then none else some g
  | none => none

/-- The standalone partition of an entity's fields (order preserved). -/
def standaloneFields (fs : List Field) : List Field :=
  fs.filter fun f => (groupLabel f).isNone

/-- The grouped partition of an entity's fields. -/
def groupedFields (fs : List Field) : List Field :=
  fs.filter fun f => (groupLabel f).isSome

/-- First-seen-order deduplication, the key order of a Python dict built by
inserting each label on first sight. -/
def dedupFirst : List String → List String
  | [] => []
  | g :: gs => g :: (dedupFirst gs).filter (fun x => x ≠ g)

/-- The distinct field-group labels of an entity, in first-seen order:
the keys of `field_groups_dict`. -/
def groupNames (fs : List Field) : List String :=
  dedupFirst (fs.filterMap groupLabel)

/-- `field_groups_dict` itself: each group label with its member fields in
field order. -/
def groupsOf (fs : List Field) : List (String × List Field) :=
  (groupNames fs).map fun g => (g, fs.filter fun f => groupLabel f = some g)

/-- The kind of a vertex mxCell emitted by `generate_drawio`. -/
inductive NodeKind where
  | container
  | legend
  | header
  | fieldNode
  | groupNode
  | expandedNode
  | lookupIcon
  deriving DecidableEq

/-- One mxCell of the generated document.  `root` is one of the two bare
cells with ids 0 and 1; `vertex` carries the node kind, the `value` text,
the style, the `spacingRight=20` lookup padding flag and the geometry;
`edge` carries the `source`/`target` ids and the `endArrow` of its style
string (the remaining fixed style text is identical across edges of a
kind). -/
inductive CellData where
  | root
  | vertex (kind : NodeKind) (value : String) (style : Style) (lookupPad : Bool)
      (x y w h : Int)
  | edge (source target : Nat) (endArrow : String)
  deriving DecidableEq

/-- An mxCell with its id (Python emits `str(id)`; the decimal rendering of
distinct naturals is distinct, so ids are kept as naturals). -/
structure Cell where
  id : Nat
  data : CellData
  deriving DecidableEq

def Cell.isVertex (c : Cell) : Bool :=
  match c.data with
  | .vertex .. => true
  | _ => false

def Cell.isEdge (c : Cell) : Bool :=
  match c.data with
  | .edge .. => true
  | _ => false

/-- The vertical coordinate of a vertex cell (0 for root and edge cells,
which carry no own y geometry). -/
def cellY (c : Cell) : Int :=
  match c.data with
  | .vertex _ _ _ _ _ y _ _ => y
  | _ => 0

/-- Vertex cells that represent the data model itself: entity headers,
standalone fields, group boxes and expanded group members — the nodes of
spec section 4.2 steps 2-5. -/
def isEntityNode (c : Cell) : Bool :=
  match c.data with
  | .vertex .header .. => true
  | .vertex .fieldNode .. => true
  | .vertex .groupNode .. => true
  | .vertex .expandedNode .. => true
  | _ => false

/-- Cells whose vertical position comes from the running field cursor
`current_field_y` (fields, groups, expanded members and their lookup
icons) — every vertex except headers (fixed y 127), the container and the
legend. -/
def rowCell (c : Cell) : Bool :=
  match c.data with
  | .vertex .fieldNode .. => true
  | .vertex .groupNode .. => true
  | .vertex .expandedNode .. => true
  | .vertex .lookupIcon .. => true
  | _ => false

/-- The standalone-field loop (generators.py lines 325-355): one field box,
one edge from the entity header, an optional lookup icon, cursor advances by
`FIELD_SPACING` per field.  Returns the cells, the next id and the final
cursor. -/
def emitStandalone (entityId : Nat) : Nat → Int → List Field → List Cell × Nat × Int
  | ctr, y, [] => ([], ctr, y)
  | ctr, y, f :: fs =>
      let fieldCell : Cell :=
        ⟨ctr, .vertex .fieldNode f.name (get_field_style f) f.isLookup
          FIELD_X y FIELD_WIDTH FIELD_HEIGHT⟩
      let edgeCell : Cell := ⟨ctr + 1, .edge entityId ctr "none"⟩
      let iconCells : List Cell :=
        if f.isLookup then
          [⟨ctr + 2, .vertex .lookupIcon "" .icon false
            (FIELD_X + FIELD_WIDTH - LOOKUP_ICON_SIZE - 3)
            (y + (FIELD_HEIGHT - LOOKUP_ICON_SIZE) / 2)
            LOOKUP_ICON_SIZE LOOKUP_ICON_SIZE⟩]
        else []
      let ctr' := if f.isLookup then ctr + 3 else ctr + 2
      let rest := emitStandalone entityId ctr' (y + FIELD_SPACING) fs
      (fieldCell :: edgeCell :: iconCells ++ rest.1, rest.2)

/-- The expanded-field loop inside a group (generators.py lines 388-417):
children start at the group's own y and step by `FIELD_SPACING`. -/
def emitExpanded (groupId : Nat) : Nat → Int → List Field → List Cell × Nat × Int
  | ctr, y, [] => ([], ctr, y)
  | ctr, y, f :: fs =>
      let expCell : Cell :=
        ⟨ctr, .vertex .expandedNode f.name (get_field_style f) f.isLookup
          EXPANDED_X y EXPANDED_WIDTH FIELD_HEIGHT⟩
      let edgeCell : Cell := ⟨ctr + 1, .edge groupId ctr "none"⟩
      let iconCells : List Cell :=
        if f.isLookup then
          [⟨ctr + 2, .vertex .lookupIcon "" .icon false
            (EXPANDED_X + EXPANDED_WIDTH - LOOKUP_ICON_SIZE - 3)
            (y + (FIELD_HEIGHT - LOOKUP_ICON_SIZE) / 2)
            LOOKUP_ICON_SIZE LOOKUP_ICON_SIZE⟩]
        else []
      let ctr' := if f.isLookup then ctr + 3 else ctr + 2
      let rest := emitExpanded groupId ctr' (y + FIELD_SPACING) fs
      (expCell :: edgeCell :: iconCells ++ rest.1, rest.2)

/-- One field group (generators.py lines 362-417, one iteration): the yellow
group box at the current cursor, its `ERmany` edge from the entity header,
then the expanded children starting at the same y.  Returns the cells and the
next id; the caller advances the cursor. -/
def emitGroupBlock (entityId ctr : Nat) (y : Int) (g : String) (gfs : List Field) :
    List Cell × Nat :=
  let groupCell : Cell :=
    ⟨ctr, .vertex .groupNode g .fieldGroup false
      FIELD_GROUP_X y FIELD_GROUP_WIDTH FIELD_HEIGHT⟩
  let gEdge : Cell := ⟨ctr + 1, .edge entityId ctr "ERmany"⟩
  let children := emitExpanded ctr (ctr + 2) y gfs
  (groupCell :: gEdge :: children.1, children.2.1)

/-- The field-group loop: after each group the cursor advances by
`max(1, number_of_fields_in_group) * FIELD_SPACING` (line 421). -/
def emitGroups (entityId : Nat) : Nat → Int → List (String × List Field) → List Cell × Nat × Int
  | ctr, y, [] => ([], ctr, y)
  | ctr, y, (g, gfs) :: rest =>
      let block := emitGroupBlock entityId ctr y g gfs
      let tail := emitGroups entityId block.2
        (y + ((max 1 gfs.length : Nat) : Int) * FIELD_SPACING) rest
      (block.1 ++ tail.1, tail.2)

/-- One entity (generators.py lines 296-421): the blue header at the fixed
position `(ENTITY_X, ENTITY_Y_START)`, then the standalone fields, then the
groups, sharing the running cursor. -/
def emitEntity (ctr : Nat) (y : Int) (e : Entity) : List Cell × Nat × Int :=
  let headerCell : Cell :=
    ⟨ctr, .vertex .header e.name .businessEntity false
      ENTITY_X ENTITY_Y_START ENTITY_WIDTH ENTITY_HEIGHT⟩
  let sCells := emitStandalone ctr (ctr + 1) y (standaloneFields e.fields)
  let gCells := emitGroups ctr sCells.2.1 sCells.2.2 (groupsOf e.fields)
  (headerCell :: sCells.1 ++ gCells.1, gCells.2)

/-- The entity loop: entities in model order, one shared id counter and one
shared vertical cursor. -/
def emitEntities : Nat → Int → List Entity → List Cell × Nat × Int
  | ctr, y, [] => ([], ctr, y)
  | ctr, y, e :: es =>
      let cs := emitEntity ctr y e
      let rest := emitEntities cs.2.1 cs.2.2 es
      (cs.1 ++ rest.1, rest.2)

/-- The legend specs (generators.py lines 264-269): text, width, colour key. -/
def label_specs : List (String × Int × Style) :=
  [("Business Entity", 97, .businessEntity),
   ("General Attributes", 109, .generalAttribute),
   ("Identifiers / Custom", 140, .identifier),
   ("Field Groups", 112, .fieldGroup)]

/-- The legend loop (lines 273-288): labels laid right-to-left from the
container's right edge, ids allocated in reversed-spec order. -/
def legendAux : Nat → Int → List (String × Int × Style) → List Cell
  | _, _, [] => []
  | ctr, x, (text, w, st) :: rest =>
      let x' := x - (w + LABEL_GAP)
      ⟨ctr, .vertex .legend text st false x' (CONTAINER_Y + LABEL_PADDING)
        w LABEL_HEIGHT⟩ :: legendAux (ctr + 1) x' rest

def legendCells (container_width : Int) : List Cell :=
  legendAux 3 (CONTAINER_X + container_width - LABEL_PADDING) label_specs.reverse

/-- `total_rows` (generators.py lines 183-194): standalone fields count one
row each, every group counts `max(1, member count)` rows. -/
def totalRows (bes : List Entity) : Nat :=
  (bes.map fun e =>
    (standaloneFields e.fields).length
      + ((groupsOf e.fields).map fun p => max 1 p.2.length).sum).sum

/-- The generated document: the page height attribute that varies with the
model, and the mxCells in emission order.  (The enclosing mxfile/diagram
attributes and the fixed style strings are constants of the source and are
not repeated here; the final minidom serialisation is a fixed deterministic
rendering of this cell list.) -/
structure DrawioDoc where
  pageHeight : Int
  cells : List Cell
  deriving DecidableEq

/-- `generate_drawio` (generators.py lines 12-435).  Two bare root cells with
ids 0 and 1, the container box (id 2), the four legend labels (ids 3-6), then
the business entities with their fields and edges, ids counted on from 7 and
the field cursor starting at `FIELD_Y_START`. -/
def generate_drawio (m : DataModel) : DrawioDoc :=
  let business_entities := m.entities.filter fun e => e.type = "BusinessEntity"
  let total_rows := totalRows business_entities
  let content_bottom_y : Int := FIELD_Y_START + ((total_rows : Int) + 2) * FIELD_SPACING
  let container_height : Int := max 806 (content_bottom_y - CONTAINER_Y + 50)
  let container_width : Int := max 729 (EXPANDED_X + EXPANDED_WIDTH + 50 - CONTAINER_X)
  let containerCell : Cell :=
    ⟨2, .vertex .container "Data Model" .plain false
      CONTAINER_X CONTAINER_Y container_width container_height⟩
  let entityCells := emitEntities 7 FIELD_Y_START business_entities
  { pageHeight := max 1100 (container_height + 200),
    cells := ⟨0, .root⟩ :: ⟨1, .root⟩ :: containerCell
      :: legendCells container_width ++ entityCells.1 }

/- ============================================================ -/
/- Report Renderer (generators.py, generate_html_report)        -/
/- ============================================================ -/

/-- `get_summary_stats` (generators.py lines 1136-1166). -/
structure SummaryStats where
  total_entities : Nat
  business_entities : Nat
  reference_entities : Nat
  total_fields : Nat
  custom_fields : Nat
  ootb_fields : Nat
  total_relationships : Nat
  deriving DecidableEq

def get_summary_stats (m : DataModel) : SummaryStats :=
  let entities := m.entities
  let business_entities := entities.filter fun e => e.type = "BusinessEntity"
  let reference_entities := entities.filter fun e => e.type = "ReferenceEntity"
  let total_fields := (entities.map fun e => e.fields.length).sum
  let custom_fields := (entities.map fun e => (e.fields.filter fun f => f.isCustom).length).sum
  { total_entities := entities.length,
    business_entities := business_entities.length,
    reference_entities := reference_entities.length,
    total_fields := total_fields,
    custom_fields := custom_fields,
    ootb_fields := total_fields - custom_fields,
    total_relationships := m.relationships.length }

/-- One row of an entity's field table in the HTML report (generators.py
lines 939-1021): the interpolated cell texts and the property badges, in
badge order (Custom/OOTB, Required, Lookup, group). -/
structure FieldRow where
  name : String
  dataType : String
  fieldGroupText : String
  properties : List String
  isCustomRow : Bool
  description : String
  deriving DecidableEq

/-- One entity card of the report (lines 884-1028 for business entities,
lines 1038-1085 for reference entities). -/
structure EntityCard where
  name : String
  typeText : String
  description : String
  rows : List FieldRow
  deriving DecidableEq

/-- The structured content of the HTML report: header data, the stat cards,
the business-entity cards and the reference-entity cards.  The surrounding
fixed markup, CSS and script text are constants of the source. -/
structure HtmlReport where
  generatedDate : String
  platform : String
  stats : SummaryStats
  reasoningSummary : String
  businessCards : List EntityCard
  referenceCards : List EntityCard
  deriving DecidableEq

/-- Python `metadata.get(k, dflt)` over the modelled metadata mapping. -/
def mget (kvs : List (String × String)) (k dflt : String) : String :=
  match kvs with
  | [] => dflt
  | (k', v) :: rest => if k' = k then v else mget rest k dflt

/-- The properties badges of one field row (generators.py lines 959-974). -/
def fieldBadges (f : Field) : List String :=
  (if f.isCustom then ["Custom"] else ["OOTB"])
  ++ (if f.isRequired then ["Required"] else [])
  ++ (if f.isLookup then ["Lookup: " ++ f.lookupEntity] else [])
  ++ (let fg := f.fieldGroup.getD "-"
      if fg ≠ "" && fg ≠ "-" then [fg] else [])

/-- One business-entity field row (lines 939-1021). -/
def businessFieldRow (f : Field) : FieldRow :=
  { name := f.name,
    dataType := f.dataType,
    fieldGroupText := f.fieldGroup.getD "-",
    properties := fieldBadges f,
    isCustomRow := f.isCustom,
    description := f.description }

/-- One reference-entity field row (lines 1067-1078): name, data type and
description only. -/
def referenceFieldRow (f : Field) : FieldRow :=
  { name := f.name,
    dataType := f.dataType,
    fieldGroupText := "",
    properties := [],
    isCustomRow := false,
    description := f.description }

/-- `generate_html_report` (generators.py lines 456-1133), as the structured
document it interpolates: stats, then one card per BusinessEntity with its
field table, then one card per ReferenceEntity.  The function only reads the
model (aside from writing the finished text to `output_path`). -/
def generate_html_report (m : DataModel) : HtmlReport :=
  let entities := m.entities
  let business_entities := entities.filter fun e => e.type = "BusinessEntity"
  let reference_entities := entities.filter fun e => e.type = "ReferenceEntity"
  { generatedDate := mget m.metadata "generatedDate" "N/A",
    platform := mget m.metadata "platform" "informatica",
    stats := get_summary_stats m,
    reasoningSummary := m.reasoningSummary,
    businessCards := business_entities.map fun e =>
      { name := e.name, typeText := e.type, description := e.description,
        rows := e.fields.map businessFieldRow },
    referenceCards := reference_entities.map fun e =>
      { name := e.name, typeText := "Reference Entity", description := e.description,
        rows := e.fields.map referenceFieldRow } }

/- ============================================================ -/
/- Frame modelling: rendering is read-only                      -/
/- ============================================================ -/

/-- State-passing form of `generate_drawio`: the body of the source function
contains no assignment into `data_model` (it only reads via `.get` and list
comprehensions), so the model state after the call is the input itself. -/
def generate_drawio_run (m : DataModel) : DrawioDoc × DataModel :=
  (generate_drawio m, m)

/-- State-passing form of `generate_html_report`: likewise read-only with
respect to the input model. -/
def generate_html_report_run (m : DataModel) : HtmlReport × DataModel :=
  (generate_html_report m, m)

/- ============================================================ -/
/- Report field categorisation                                  -/
/- (generate_data_model_report.py, analyze_entity)              -/
/- ============================================================ -/

/-- The category a field lands in inside `analyze_entity`. -/
inductive ReportClass where
  | meta
  | group (g : String)
  | identifier
  | general
  deriving DecidableEq

/-- The if/elif categorisation chain of `analyze_entity`
(generate_data_model_report.py lines 45-53): `_meta` first, then non-empty
non-meta groups, then identifier-looking names, else general attributes. -/
def analyze_entity_classify (f : Field) : ReportClass :=
  match f.fieldGroup with
  | some g =>
      if g = "_meta" then .meta
      else if g ≠ "" then .group g
      else if hasSub (pyLower f.name) "id" || hasSub (pyLower f.name) "identifier"
        then .identifier else .general
  | none =>
      if hasSub (pyLower f.name) "id" || hasSub (pyLower f.name) "identifier"
        then .identifier else .general

/-- How the Layout Engine treats a field: either it belongs to a drawn group
(generators.py lines 312-319) or it is a standalone node whose colour comes
from `get_field_style`. -/
inductive LayoutClass where
  | grouped (g : String)
  | standalone (s : Style)
  deriving DecidableEq

def layout_classify (f : Field) : LayoutClass :=
  match groupLabel f with
  | some g => .grouped g
  | none => .standalone (get_field_style f)

/-- Agreement between the report categorisation and the layout treatment of a
single field: same group cluster, identifier category matching identifier
(red) styling, general attributes matching the green styling, and the
report's meta category matching the layout's identifier-styled standalone
rendering of `_meta` fields. -/
def classesAgree (f : Field) : Bool :=
  match analyze_entity_classify f, layout_classify f with
  | .group g, .grouped g' => g = g'
  | .identifier, .standalone .identifier => true
  | .general, .standalone .generalAttribute => true
  | .meta, .standalone .identifier => true
  | _, _ => false

/- ============================================================ -/
/- Cursor response fence stripping                              -/
/- (cursor_workflow.py, parse_cursor_response)                  -/
/- ============================================================ -/

/-- Python `str.strip()`'s whitespace set. -/
def wsChar (c : Char) : Bool :=
  c = ' ' || c = '\t' || c = '\n' || c = '\r' || c = '\x0b' || c = '\x0c'

/-- Python `str.strip()` on a character list. -/
def pyStrip (s : List Char) : List Char :=
  ((s.dropWhile wsChar).reverse.dropWhile wsChar).reverse

/-- Python `str.startswith`. -/
def pyStartsWith (s p : List Char) : Bool :=
  p.isPrefixOf s

/-- Python `str.endswith`. -/
def pyEndsWith (s p : List Char) : Bool :=
  p.reverse.isPrefixOf s.reverse

/-- Python `s[:-n]` for `0 < n ≤ len(s)`. -/
def pyDropRight (s : List Char) (n : Nat) : List Char :=
  s.take (s.length - n)

/-- Source lines 117-118: `if content.startswith("```json"): content = content[7:]`. -/
def stripJsonFence (content : List Char) : List Char :=
  if pyStartsWith content "```json".data then content.drop 7 else content

/-- Source lines 119-120: `if content.startswith("```"): content = content[3:]`. -/
def stripBareFence (content : List Char) : List Char :=
  if pyStartsWith content "```".data then content.drop 3 else content

/-- Source lines 121-122: `if content.endswith("```"): content = content[:-3]`. -/
def stripEndFence (content : List Char) : List Char :=
  if pyEndsWith content "```".data then pyDropRight content 3 else content

/-- The fence-stripping and whitespace-cleaning steps of
`parse_cursor_response` (cursor_workflow.py lines 113-122), applied to the
file content before `json.loads`: strip, drop a leading triple-backtick
fence with the literal tag `json` (7 characters) or with no tag
(3 characters), drop a trailing triple-backtick fence, strip again. -/
def clean_cursor_content (raw : List Char) : List Char :=
  pyStrip (stripEndFence (stripBareFence (stripJsonFence (pyStrip raw))))

/-- Boolean guard on a JSON text's two ends: nonempty JSON text starts and
ends with a non-whitespace character that is not a backtick (every valid
JSON document does: it starts with one of `{[\x22-0123456789tfn` and ends
with `\x7d]\x22` or an alphanumeric character). -/
def okJsonEnds (j : List Char) : Bool :=
  (j.head?.all fun c => !wsChar c && !(c = '`'))
    && (j.getLast?.all fun c => !wsChar c && !(c = '`'))

/- ============================================================ -/
/- Counting and well-formedness views of the diagram            -/
/- ============================================================ -/

/-- The BusinessEntity filter of generators.py line 33. -/
def businessEntities (m : DataModel) : List Entity :=
  m.entities.filter fun e => e.type = "BusinessEntity"

def numBusinessEntities (m : DataModel) : Nat :=
  (businessEntities m).length

/-- Number of standalone fields across BusinessEntities. -/
def standaloneFieldCount (m : DataModel) : Nat :=
  ((businessEntities m).map fun e => (standaloneFields e.fields).length).sum

/-- Number of distinct field groups across BusinessEntities. -/
def fieldGroupCount (m : DataModel) : Nat :=
  ((businessEntities m).map fun e => (groupNames e.fields).length).sum

/-- Number of grouped fields across BusinessEntities. -/
def groupedFieldCount (m : DataModel) : Nat :=
  ((businessEntities m).map fun e => (groupedFields e.fields).length).sum

/-- All vertex mxCells of the document (`vertex='1'`). -/
def vertexCount (d : DrawioDoc) : Nat :=
  (d.cells.filter Cell.isVertex).length

/-- The entity-derived diagram nodes (headers, standalone fields, group
boxes, expanded members). -/
def entityNodeCount (d : DrawioDoc) : Nat :=
  (d.cells.filter isEntityNode).length

/-- All edge mxCells of the document (`edge='1'`). -/
def edgeCount (d : DrawioDoc) : Nat :=
  (d.cells.filter Cell.isEdge).length

/-- Ids of the vertex cells of a prefix, newest first, on top of `acc`. -/
def vertexIdsAcc (acc : List Nat) : List Cell → List Nat
  | [] => acc
  | c :: rest => vertexIdsAcc (if c.isVertex then c.id :: acc else acc) rest

/-- Document well-formedness for edges: walking the cells in order with the
set `vs` of vertex ids seen so far, every edge's `source` and `target` name
a vertex cell emitted earlier. -/
def goodFrom (vs : List Nat) : List Cell → Bool
  | [] => true
  | c :: rest =>
      match c.data with
      | .edge s t _ => vs.contains s && vs.contains t && goodFrom vs rest
      | .vertex .. => goodFrom (c.id :: vs) rest
      | .root => goodFrom vs rest

/-- The cells of a document carry the consecutive ids `s, s+1, s+2, ...`:
the shape produced by `get_next_id`, which returns the counter and
increments it for every created cell. -/
def consecFrom : Nat → List Cell → Prop
  | _, [] => True
  | s, c :: rest => c.id = s ∧ consecFrom (s + 1) rest

/- ============================================================ -/
/- Concrete test inputs                                         -/
/- ============================================================ -/

/-- End-to-end scenario A of the spec: one BusinessEntity with 2 standalone
fields and 1 group of 3 fields. -/
def scenarioA : DataModel :=
  { entities := [
      { name := "Person", type := "BusinessEntity",
        fields := [
          { name := "firstName" },
          { name := "lastName" },
          { name := "mobilePhone", fieldGroup := some "Phone" },
          { name := "homePhone", fieldGroup := some "Phone" },
          { name := "workPhone", fieldGroup := some "Phone" } ] } ] }

/-- Two BusinessEntities: the first has one group of two fields, the second
follows it in the document. -/
def twoEntityModel : DataModel :=
  { entities := [
      { name := "E1", type := "BusinessEntity",
        fields := [
          { name := "a", fieldGroup := some "G" },
          { name := "b", fieldGroup := some "G" } ] },
      { name := "E2", type := "BusinessEntity", fields := [] } ] }

/-- A custom standalone field with no identifier-like name. -/
def customNotesField : Field :=
  { name := "notes", isCustom := true }

/- ============================================================ -/
/- Theorems                                                     -/
/- ============================================================ -/

/-- Claim C2: the Layout Engine is deterministic — two invocations of
`generate_drawio` on the same unchanged input return identical output.  The
source reads no clock and no randomness source; its only iteration over a
dict (`field_groups_dict.items()`) follows Python's deterministic insertion
order, modelled by the first-seen order of `groupsOf`; and the final minidom
serialisation is a fixed function of the element tree.  Hence the embedding
is a pure function and equal inputs give equal documents. -/
theorem generate_drawio_deterministic (m₁ m₂ : DataModel) (h : m₁ = m₂) :
    generate_drawio m₁ = generate_drawio m₂ := by
  rw [h]

theorem generate_drawio_deterministic_witness :
    generate_drawio scenarioA = generate_drawio scenarioA :=
  generate_drawio_deterministic scenarioA scenarioA rfl

/-- Claim C9: rendering is read-only — `generate_drawio` and
`generate_html_report` leave the input data model unchanged.  The source
bodies contain no assignment into `data_model` (they read via `.get`, list
comprehensions and f-string interpolation only), so their state-passing
forms return the input model untouched. -/
theorem rendering_read_only (m : DataModel) :
    (generate_drawio_run m).2 = m ∧ (generate_html_report_run m).2 = m :=
  ⟨rfl, rfl⟩

/-- Claim C4: an entity that is a mapping with `name`, a valid `type`, and
`description` but no `fields` key yields exactly one error from the
validator's per-entity checks, the error naming that entity (by its index)
and the key `fields`; the `fields` iteration falls back to the empty list
and cannot crash. -/
theorem entity_missing_fields_single_error (i : Nat) (kvs : List (String × Json))
    (hname : jhas kvs "name" = true)
    (htype : isValidEntityType (jget kvs "type" (.str "")) = true)
    (hdesc : jhas kvs "description" = true)
    (hfields : jhas kvs "fields" = false) :
    checkEntity i (.obj kvs) = [VError.entityMissingField i "fields"] := by
  have htype' : jhas kvs "type" = true := by
    unfold jhas
    cases hl : jlookup "type" kvs with
    | none =>
        exfalso
        have : jget kvs "type" (.str "") = .str "" := by simp [jget, hl]
        rw [this] at htype
        simp [isValidEntityType] at htype
    | some v => rfl
  have hfl : jlookup "fields" kvs = none := by
    unfold jhas at hfields
    cases hl : jlookup "fields" kvs with
    | none => rfl
    | some v => rw [hl] at hfields; simp at hfields
  simp only [jget] at htype
  simp [checkEntity, hname, htype', hdesc, hfields, htype, jget, hfl, withIdx]

theorem entity_missing_fields_single_error_witness :
    checkEntity 0 (.obj [("name", .str "Person"), ("type", .str "BusinessEntity"),
        ("description", .str "a person")])
      = [VError.entityMissingField 0 "fields"] :=
  entity_missing_fields_single_error 0 _ rfl rfl rfl rfl

/-- Claim C3: the Schema Validator is a total function returning an
`(is_valid, errors)` pair (totality holds by construction: the source only
uses `isinstance` tests and `.get` with defaults, so no decoded JSON value
can make it raise); `is_valid` holds exactly when no error was accumulated;
and on any dict input the error list is the concatenation of the
independently computed top-level-key, per-entity and per-relationship error
lists — an error found in one section never short-circuits the later
sections, so every violation contributes its own error. -/
theorem validator_total_accumulates :
    (∀ j, ((validate_data_model_structure j).1 = true
      ↔ (validate_data_model_structure j).2 = []))
    ∧ (∀ kvs es rs, jget kvs "entities" (.arr []) = .arr es →
        jget kvs "relationships" (.arr []) = .arr rs →
        (validate_data_model_structure (.obj kvs)).2
          = topLevelKeyErrors kvs ++ withIdx checkEntity 0 es ++ withIdx checkRel 0 rs) := by
  constructor
  · intro j
    cases j <;> simp [validate_data_model_structure]
  · intro kvs es rs he hr
    simp [validate_data_model_structure, entitiesSectionErrors,
      relationshipsSectionErrors, he, hr]

/-- Witness for C3 at a dict input with a violation in the entities section
and a violation in the relationships section: both errors are accumulated. -/
theorem validator_total_accumulates_witness :
    (validate_data_model_structure (.obj [("entities", .arr [.str "x"]),
        ("relationships", .arr [.str "y"])])).2
      = [VError.entityNotDict 0, VError.relNotDict 0] := by
  have h := validator_total_accumulates.2
    [("entities", .arr [.str "x"]), ("relationships", .arr [.str "y"])]
    [.str "x"] [.str "y"] rfl rfl
  rw [h]
  rfl

/- Helper lemmas for the fence-stripping proofs. -/

theorem isPrefixOf_self_append (l r : List Char) : (l.isPrefixOf (l ++ r)) = true := by
  rw [List.isPrefixOf_iff_prefix]
  exact ⟨r, rfl⟩

theorem isPrefixOf_append_both (a b c : List Char) :
    ((a ++ b).isPrefixOf (a ++ c)) = b.isPrefixOf c := by
  induction a with
  | nil => rfl
  | cons x t ih => simp [List.isPrefixOf, ih]

theorem okJsonEnds_head {J : List Char} {c : Char} (h : okJsonEnds J = true)
    (hc : J.head? = some c) : wsChar c = false ∧ c ≠ '`' := by
  unfold okJsonEnds at h
  rw [Bool.and_eq_true, hc] at h
  have := h.1
  simp only [Option.all_some, Bool.and_eq_true, Bool.not_eq_true'] at this
  exact ⟨this.1, by simpa using this.2⟩

theorem okJsonEnds_last {J : List Char} {c : Char} (h : okJsonEnds J = true)
    (hc : J.getLast? = some c) : wsChar c = false ∧ c ≠ '`' := by
  unfold okJsonEnds at h
  rw [Bool.and_eq_true, hc] at h
  have := h.2
  simp only [Option.all_some, Bool.and_eq_true, Bool.not_eq_true'] at this
  exact ⟨this.1, by simpa using this.2⟩

theorem pyStrip_of_ends (J : List Char)
    (hhead : ∀ c, J.head? = some c → wsChar c = false)
    (hlast : ∀ c, J.getLast? = some c → wsChar c = false) :
    pyStrip J = J := by
  cases J with
  | nil => rfl
  | cons a t =>
      have ha : wsChar a = false := hhead a rfl
      have h1 : List.dropWhile wsChar (a :: t) = a :: t := by
        rw [List.dropWhile_cons, ha]
        simp
      unfold pyStrip
      rw [h1]
      cases hr : (a :: t).reverse with
      | nil => exact absurd hr (by simp)
      | cons b r' =>
          have hb : wsChar b = false := by
            apply hlast
            rw [← List.head?_reverse, hr]
            rfl
          rw [List.dropWhile_cons, hb]
          simp [← hr]

theorem pyStrip_newline_wrap (J : List Char) (h : okJsonEnds J = true) :
    pyStrip ('\n' :: (J ++ ['\n'])) = J := by
  have hnl : wsChar '\n' = true := rfl
  cases J with
  | nil => rfl
  | cons a t =>
      have ha : wsChar a = false := (okJsonEnds_head h rfl).1
      unfold pyStrip
      rw [List.dropWhile_cons, hnl]
      simp only [if_true]
      have h1 : List.dropWhile wsChar ((a :: t) ++ ['\n']) = (a :: t) ++ ['\n'] := by
        rw [show (a :: t) ++ ['\n'] = a :: (t ++ ['\n']) from rfl,
          List.dropWhile_cons, ha]
        simp
      rw [h1]
      have h2 : ((a :: t) ++ ['\n']).reverse = '\n' :: (a :: t).reverse := by
        simp
      rw [h2, List.dropWhile_cons, hnl]
      simp only [if_true]
      cases hr : (a :: t).reverse with
      | nil => exact absurd hr (by simp)
      | cons b r' =>
          have hb : wsChar b = false := by
            refine (okJsonEnds_last h ?_).1
            rw [← List.head?_reverse, hr]
            rfl
          rw [List.dropWhile_cons, hb]
          simp [← hr]

theorem startsFence_eq_false (J : List Char) (h : okJsonEnds J = true)
    (p : List Char) (hp : p.head? = some '`') :
    pyStartsWith J p = false := by
  cases J with
  | nil =>
      cases p with
      | nil => exact absurd hp (by simp)
      | cons x q => rfl
  | cons a t =>
      have ha : a ≠ '`' := (okJsonEnds_head h rfl).2
      cases p with
      | nil => exact absurd hp (by simp)
      | cons x q =>
          have hx : x = '`' := by simpa using hp
          subst hx
          unfold pyStartsWith
          rw [show List.isPrefixOf ('`' :: q) (a :: t)
              = (('`' == a) && q.isPrefixOf t) from rfl]
          rw [beq_eq_false_iff_ne.mpr (Ne.symm ha)]
          rfl

theorem endsFence_eq_false (J : List Char) (h : okJsonEnds J = true) :
    pyEndsWith J "```".data = false := by
  unfold pyEndsWith
  cases hr : J.reverse with
  | nil => rfl
  | cons b r' =>
      have hb : b ≠ '`' := by
        refine (okJsonEnds_last h ?_).2
        rw [← List.head?_reverse, hr]
        rfl
      rw [show ("```".data.reverse) = '`' :: '`' :: '`' :: [] from rfl]
      rw [show List.isPrefixOf ('`' :: '`' :: '`' :: []) (b :: r')
          = (('`' == b) && List.isPrefixOf ('`' :: '`' :: []) r') from rfl]
      rw [beq_eq_false_iff_ne.mpr (Ne.symm hb)]
      rfl

/-- Claim C7 (amended): for every JSON text (trimmed, and — as for every
valid JSON document — neither starting nor ending with whitespace or a
backtick), `parse_cursor_response`'s cleaning step recovers the text itself
when the input is bare, wrapped in tagless triple-backtick fences, or
wrapped in fences with the literal language tag `json`.  (Fences with any
other language tag are NOT stripped — see the counterexample.) -/
theorem fence_stripping (J : List Char) (h : okJsonEnds J = true) :
    clean_cursor_content J = J
    ∧ clean_cursor_content ("```".data ++ (('\n' :: (J ++ ['\n'])) ++ "```".data)) = J
    ∧ clean_cursor_content ("```json".data ++ (('\n' :: (J ++ ['\n'])) ++ "```".data)) = J := by
  have hstrip : pyStrip J = J :=
    pyStrip_of_ends J (fun c hc => (okJsonEnds_head h hc).1)
      (fun c hc => (okJsonEnds_last h hc).1)
  have hmid : pyStrip ('\n' :: (J ++ ['\n'])) = J := pyStrip_newline_wrap J h
  have hb2 : stripBareFence (('\n' :: (J ++ ['\n'])) ++ "```".data)
      = ('\n' :: (J ++ ['\n'])) ++ "```".data := by
    unfold stripBareFence
    rw [show pyStartsWith (('\n' :: (J ++ ['\n'])) ++ "```".data) "```".data
        = false from rfl]
    simp
  have he2 : stripEndFence (('\n' :: (J ++ ['\n'])) ++ "```".data)
      = '\n' :: (J ++ ['\n']) := by
    unfold stripEndFence
    have hc : pyEndsWith (('\n' :: (J ++ ['\n'])) ++ "```".data) "```".data = true := by
      unfold pyEndsWith
      rw [List.reverse_append]
      exact isPrefixOf_self_append _ _
    rw [hc]
    simp only [if_true]
    unfold pyDropRight
    rw [List.length_append, show ("```".data).length = 3 from rfl,
      Nat.add_sub_cancel]
    exact List.take_left _ _
  refine ⟨?_, ?_, ?_⟩
  · have h1 : stripJsonFence J = J := by
      unfold stripJsonFence
      rw [startsFence_eq_false J h "```json".data rfl]
      simp
    have h2 : stripBareFence J = J := by
      unfold stripBareFence
      rw [startsFence_eq_false J h "```".data rfl]
      simp
    have h3 : stripEndFence J = J := by
      unfold stripEndFence
      rw [endsFence_eq_false J h]
      simp
    unfold clean_cursor_content
    rw [hstrip, h1, h2, h3, hstrip]
  · have hstrip0 : pyStrip ("```".data ++ (('\n' :: (J ++ ['\n'])) ++ "```".data))
        = "```".data ++ (('\n' :: (J ++ ['\n'])) ++ "```".data) := by
      apply pyStrip_of_ends
      · intro c hc
        rw [show ("```".data ++ (('\n' :: (J ++ ['\n'])) ++ "```".data)).head?
            = some '`' from rfl] at hc
        cases hc
        rfl
      · intro c hc
        rw [List.getLast?_append, List.getLast?_append,
          show ("```".data).getLast? = some '`' from rfl] at hc
        simp only [Option.or_some] at hc
        cases hc
        rfl
    have h1 : stripJsonFence ("```".data ++ (('\n' :: (J ++ ['\n'])) ++ "```".data))
        = "```".data ++ (('\n' :: (J ++ ['\n'])) ++ "```".data) := by
      unfold stripJsonFence pyStartsWith
      rw [show "```json".data = "```".data ++ "json".data from rfl,
        isPrefixOf_append_both]
      simp
    have h2 : stripBareFence ("```".data ++ (('\n' :: (J ++ ['\n'])) ++ "```".data))
        = ('\n' :: (J ++ ['\n'])) ++ "```".data := by
      unfold stripBareFence pyStartsWith
      rw [isPrefixOf_self_append]
      simp only [if_true]
      exact List.drop_left' rfl
    unfold clean_cursor_content
    rw [hstrip0, h1, h2, he2, hmid]
  · have hstrip0 : pyStrip ("```json".data ++ (('\n' :: (J ++ ['\n'])) ++ "```".data))
        = "```json".data ++ (('\n' :: (J ++ ['\n'])) ++ "```".data) := by
      apply pyStrip_of_ends
      · intro c hc
        rw [show ("```json".data ++ (('\n' :: (J ++ ['\n'])) ++ "```".data)).head?
            = some '`' from rfl] at hc
        cases hc
        rfl
      · intro c hc
        rw [List.getLast?_append, List.getLast?_append,
          show ("```".data).getLast? = some '`' from rfl] at hc
        simp only [Option.or_some] at hc
        cases hc
        rfl
    have h1 : stripJsonFence ("```json".data ++ (('\n' :: (J ++ ['\n'])) ++ "```".data))
        = ('\n' :: (J ++ ['\n'])) ++ "```".data := by
      unfold stripJsonFence pyStartsWith
      rw [isPrefixOf_self_append]
      simp only [if_true]
      exact List.drop_left' rfl
    unfold clean_cursor_content
    rw [hstrip0, h1, hb2, he2, hmid]

theorem fence_stripping_witness :
    clean_cursor_content "```json\n[1]\n```".data = "[1]".data := by
  have h := fence_stripping "[1]".data (by decide)
  have e : "```json\n[1]\n```".data
      = "```json".data ++ (('\n' :: ("[1]".data ++ ['\n'])) ++ "```".data) := by decide
  rw [e]
  exact h.2.2

/-- Claim C7 counterexample: a fence with the language tag `python` is not
stripped — the tag text survives into the content handed to `json.loads`,
which therefore does not recover the wrapped JSON value `[1]`. -/
theorem fence_tag_not_stripped :
    clean_cursor_content "```python\n[1]\n```".data = "python\n[1]".data
    ∧ "python\n[1]".data ≠ "[1]".data := by
  constructor
  · decide
  · decide

/- Helper lemmas about substring containment. -/

theorem hasInfixAux_iff (p s : List Char) : hasInfixAux p s = true ↔ p <:+: s := by
  induction s with
  | nil =>
      simp [hasInfixAux, List.isPrefixOf_iff_prefix, List.infix_nil, List.prefix_nil]
  | cons c rest ih =>
      simp [hasInfixAux, List.isPrefixOf_iff_prefix, ih, List.infix_cons_iff]

theorem hasInfixAux_mono (hay p q : List Char) (hsub : q <:+: p)
    (h : hasInfixAux p hay = true) : hasInfixAux q hay = true := by
  rw [hasInfixAux_iff] at h ⊢
  exact hsub.trans h

/-- A name containing `identifier` contains `id`. -/
theorem hasSub_id_of_identifier (n : String) (h : hasSub n "identifier" = true) :
    hasSub n "id" = true :=
  hasInfixAux_mono n.data "identifier".data "id".data (by decide) h

/-- A name containing `pidm` contains `id`. -/
theorem hasSub_id_of_pidm (n : String) (h : hasSub n "pidm" = true) :
    hasSub n "id" = true :=
  hasInfixAux_mono n.data "pidm".data "id".data (by decide) h

/-- A name containing `cwid` contains `id`. -/
theorem hasSub_id_of_cwid (n : String) (h : hasSub n "cwid" = true) :
    hasSub n "id" = true :=
  hasInfixAux_mono n.data "cwid".data "id".data (by decide) h

/-- The identifier-name tests of the report (`id`/`identifier`) and of the
layout (`id`/`pidm`/`cwid`) coincide: both are equivalent to containing
`id`, because `identifier`, `pidm` and `cwid` all contain `id`. -/
theorem idlike_tests_agree (n : String) :
    (hasSub n "id" || hasSub n "identifier")
      = (hasSub n "id" || hasSub n "pidm" || hasSub n "cwid") := by
  cases hid : hasSub n "id" with
  | true => rfl
  | false =>
      have h1 : hasSub n "identifier" = false := by
        cases h : hasSub n "identifier" with
        | true => rw [hasSub_id_of_identifier n h] at hid; cases hid
        | false => rfl
      have h2 : hasSub n "pidm" = false := by
        cases h : hasSub n "pidm" with
        | true => rw [hasSub_id_of_pidm n h] at hid; cases hid
        | false => rfl
      have h3 : hasSub n "cwid" = false := by
        cases h : hasSub n "cwid" with
        | true => rw [hasSub_id_of_cwid n h] at hid; cases hid
        | false => rfl
      rw [h1, h2, h3]
      rfl

/-- Claim C8 (amended): for every non-custom field, the Report Renderer's
categorisation (`analyze_entity`) and the Layout Engine's partition and
style rules classify the field the same way — same group cluster for
grouped fields, identifier category exactly when the layout styles the
standalone node red, general attributes exactly when it styles it green,
and the report's meta category for the `_meta` fields the layout renders
as identifier-styled standalone nodes.  For custom fields the two rules
genuinely diverge (see the counterexample). -/
theorem report_layout_partition_agree (f : Field) (h : f.isCustom = false) :
    classesAgree f = true := by
  have hids := idlike_tests_agree (pyLower f.name)
  unfold classesAgree analyze_entity_classify layout_classify groupLabel get_field_style
  cases hfg : f.fieldGroup with
  | none =>
      simp only [h, hfg]
      cases hid : (hasSub (pyLower f.name) "id" || hasSub (pyLower f.name) "identifier") with
      | true =>
          rw [hid] at hids
          simp [← hids, hid]
      | false =>
          rw [hid] at hids
          simp [← hids, hid]
  | some g =>
      by_cases hm : g = "_meta"
      · subst hm
        simp [h, hfg]
      · by_cases he : g = ""
        · subst he
          simp only [h, hfg]
          cases hid : (hasSub (pyLower f.name) "id" || hasSub (pyLower f.name) "identifier") with
          | true =>
              rw [hid] at hids
              simp [← hids, hid]
          | false =>
              rw [hid] at hids
              simp [← hids, hid]
        · simp [h, hfg, hm, he]

theorem report_layout_partition_agree_witness :
    classesAgree { name := "studentId" } = true :=
  report_layout_partition_agree { name := "studentId" } rfl

/-- Claim C8 counterexample: the custom standalone field `notes` is styled
red (identifier style) by the Layout Engine's `get_field_style` — custom
fields are always red — but `analyze_entity` puts it among the general
attributes, not the identifiers: the two partition rules disagree. -/
theorem report_layout_partition_disagree :
    analyze_entity_classify customNotesField = ReportClass.general
    ∧ layout_classify customNotesField = LayoutClass.standalone Style.identifier
    ∧ classesAgree customNotesField = false := by
  refine ⟨?_, ?_, ?_⟩ <;> decide

/- Helper lemmas for counting the emitted cells. -/

theorem sum_map_one {α : Type} (l : List α) : (l.map fun _ => 1).sum = l.length := by
  induction l with
  | nil => rfl
  | cons x t ih =>
      simp [ih]
      omega

theorem sum_map_add_distrib {α : Type} (l : List α) (f g : α → Nat) :
    (l.map fun a => f a + g a).sum = (l.map f).sum + (l.map g).sum := by
  induction l with
  | nil => rfl
  | cons x t ih => simp [ih]; omega

theorem sum_map_ite_count (g0 : String) (gs : List String) :
    (gs.map fun g => if g = g0 then 1 else 0).sum = gs.count g0 := by
  induction gs with
  | nil => rfl
  | cons x t ih =>
      simp only [List.map_cons, List.sum_cons, List.count_cons, ih]
      by_cases h : x = g0
      · simp [h]
        omega
      · simp [h, Ne.symm h]

theorem mem_dedupFirst (a : String) (l : List String) : a ∈ dedupFirst l ↔ a ∈ l := by
  induction l with
  | nil => simp [dedupFirst]
  | cons g gs ih =>
      simp only [dedupFirst, List.mem_cons, List.mem_filter, ih]
      by_cases h : a = g
      · simp [h]
      · simp [h]

theorem nodup_dedupFirst (l : List String) : (dedupFirst l).Nodup := by
  induction l with
  | nil => simp [dedupFirst]
  | cons g gs ih =>
      rw [dedupFirst, List.nodup_cons]
      constructor
      · intro hmem
        have := (List.mem_filter.mp hmem).2
        simp at this
      · exact ih.filter _

theorem nodup_groupNames (fs : List Field) : (groupNames fs).Nodup :=
  nodup_dedupFirst _

theorem groupLabel_mem_groupNames (fs : List Field) (f : Field) (g : String)
    (hf : f ∈ fs) (hl : groupLabel f = some g) : g ∈ groupNames fs := by
  rw [groupNames, mem_dedupFirst, List.mem_filterMap]
  exact ⟨f, hf, hl⟩

theorem sum_group_counts (gs : List String) (hnd : gs.Nodup) :
    ∀ fs : List Field, (∀ f ∈ fs, ∀ g, groupLabel f = some g → g ∈ gs) →
    (gs.map fun g => (fs.filter fun f => groupLabel f = some g).length).sum
      = (fs.filter fun f => (groupLabel f).isSome).length := by
  intro fs
  induction fs with
  | nil => intro _; simp
  | cons f t ih =>
      intro hcov
      have hcov' : ∀ f' ∈ t, ∀ g, groupLabel f' = some g → g ∈ gs :=
        fun f' hf' => hcov f' (List.mem_cons_of_mem _ hf')
      cases hl : groupLabel f with
      | none =>
          have hM : (gs.map fun g => ((f :: t).filter fun x => groupLabel x = some g).length)
              = gs.map fun g => (t.filter fun x => groupLabel x = some g).length := by
            apply List.map_congr_left
            intro g _
            simp [List.filter_cons, hl]
          have hR : ((f :: t).filter fun x => (groupLabel x).isSome)
              = t.filter fun x => (groupLabel x).isSome := by
            simp [List.filter_cons, hl]
          rw [hM, hR]
          exact ih hcov'
      | some g0 =>
          have hg0 : g0 ∈ gs := hcov f (List.mem_cons_self f t) g0 hl
          have hM : (gs.map fun g => ((f :: t).filter fun x => groupLabel x = some g).length)
              = gs.map fun g =>
                  (t.filter fun x => groupLabel x = some g).length + (if g = g0 then 1 else 0) := by
            apply List.map_congr_left
            intro g _
            by_cases hgg : g = g0
            · subst hgg
              simp [List.filter_cons, hl]
            · simp [List.filter_cons, hl, hgg, Ne.symm hgg]
          have hR : ((f :: t).filter fun x => (groupLabel x).isSome).length
              = (t.filter fun x => (groupLabel x).isSome).length + 1 := by
            simp [List.filter_cons, hl]
          rw [hM, hR, sum_map_add_distrib, ih hcov', sum_map_ite_count,
            List.count_eq_one_of_mem hnd hg0]

/-- The sizes of the drawn groups sum to the number of grouped fields. -/
theorem groupsOf_sizes (fs : List Field) :
    ((groupsOf fs).map fun p => p.2.length).sum = (groupedFields fs).length := by
  unfold groupsOf groupedFields
  rw [List.map_map]
  have := sum_group_counts (groupNames fs) (nodup_groupNames fs) fs
    (fun f hf g hl => groupLabel_mem_groupNames fs f g hf hl)
  simpa [Function.comp] using this

/- Cell counts of each emission stage. -/

theorem emitStandalone_counts (eid : Nat) (fs : List Field) : ∀ ctr y,
    (((emitStandalone eid ctr y fs).1.filter isEntityNode).length = fs.length
      ∧ ((emitStandalone eid ctr y fs).1.filter Cell.isEdge).length = fs.length) := by
  induction fs with
  | nil => intro ctr y; simp [emitStandalone]
  | cons f t ih =>
      intro ctr y
      by_cases hl : f.isLookup
      · obtain ⟨ih1, ih2⟩ := ih (ctr + 3) (y + FIELD_SPACING)
        constructor <;>
          simp [emitStandalone, hl, List.filter_cons, List.filter_append,
            isEntityNode, Cell.isEdge, ih1, ih2]
      · obtain ⟨ih1, ih2⟩ := ih (ctr + 2) (y + FIELD_SPACING)
        constructor <;>
          simp [emitStandalone, hl, List.filter_cons, List.filter_append,
            isEntityNode, Cell.isEdge, ih1, ih2]

theorem emitExpanded_counts (gid : Nat) (fs : List Field) : ∀ ctr y,
    (((emitExpanded gid ctr y fs).1.filter isEntityNode).length = fs.length
      ∧ ((emitExpanded gid ctr y fs).1.filter Cell.isEdge).length = fs.length) := by
  induction fs with
  | nil => intro ctr y; simp [emitExpanded]
  | cons f t ih =>
      intro ctr y
      by_cases hl : f.isLookup
      · obtain ⟨ih1, ih2⟩ := ih (ctr + 3) (y + FIELD_SPACING)
        constructor <;>
          simp [emitExpanded, hl, List.filter_cons, List.filter_append,
            isEntityNode, Cell.isEdge, ih1, ih2]
      · obtain ⟨ih1, ih2⟩ := ih (ctr + 2) (y + FIELD_SPACING)
        constructor <;>
          simp [emitExpanded, hl, List.filter_cons, List.filter_append,
            isEntityNode, Cell.isEdge, ih1, ih2]

theorem emitGroupBlock_counts (eid ctr : Nat) (y : Int) (g : String) (gfs : List Field) :
    (((emitGroupBlock eid ctr y g gfs).1.filter isEntityNode).length = 1 + gfs.length
      ∧ ((emitGroupBlock eid ctr y g gfs).1.filter Cell.isEdge).length = 1 + gfs.length) := by
  obtain ⟨h1, h2⟩ := emitExpanded_counts ctr gfs (ctr + 2) y
  constructor <;>
    simp [emitGroupBlock, List.filter_cons, isEntityNode, Cell.isEdge, h1, h2] <;>
    omega

theorem emitGroups_counts (eid : Nat) (gl : List (String × List Field)) : ∀ ctr y,
    (((emitGroups eid ctr y gl).1.filter isEntityNode).length
        = gl.length + (gl.map fun p => p.2.length).sum
      ∧ ((emitGroups eid ctr y gl).1.filter Cell.isEdge).length
        = gl.length + (gl.map fun p => p.2.length).sum) := by
  induction gl with
  | nil => intro ctr y; simp [emitGroups]
  | cons p rest ih =>
      intro ctr y
      obtain ⟨b1, b2⟩ := emitGroupBlock_counts eid ctr y p.1 p.2
      obtain ⟨ih1, ih2⟩ := ih (emitGroupBlock eid ctr y p.1 p.2).2
        (y + ((max 1 p.2.length : Nat) : Int) * FIELD_SPACING)
      push_cast at ih1 ih2
      constructor <;>
        simp [emitGroups, List.filter_append, b1, b2, ih1, ih2] <;>
        omega

theorem emitEntity_counts (ctr : Nat) (y : Int) (e : Entity) :
    (((emitEntity ctr y e).1.filter isEntityNode).length
        = 1 + (standaloneFields e.fields).length + (groupsOf e.fields).length
          + (groupedFields e.fields).length
      ∧ ((emitEntity ctr y e).1.filter Cell.isEdge).length
        = (standaloneFields e.fields).length + (groupsOf e.fields).length
          + (groupedFields e.fields).length) := by
  obtain ⟨s1, s2⟩ := emitStandalone_counts ctr (standaloneFields e.fields) (ctr + 1) y
  obtain ⟨g1, g2⟩ := emitGroups_counts ctr (groupsOf e.fields)
    (emitStandalone ctr (ctr + 1) y (standaloneFields e.fields)).2.1
    (emitStandalone ctr (ctr + 1) y (standaloneFields e.fields)).2.2
  rw [← groupsOf_sizes]
  constructor <;>
    simp [emitEntity, List.filter_cons, List.filter_append, isEntityNode, Cell.isEdge,
      s1, s2, g1, g2] <;>
    omega

/-- The per-entity node and edge contributions of the entity loop. -/
theorem emitEntities_counts (es : List Entity) : ∀ ctr y,
    (((emitEntities ctr y es).1.filter isEntityNode).length
        = (es.map fun e => 1 + (standaloneFields e.fields).length
            + (groupsOf e.fields).length + (groupedFields e.fields).length).sum
      ∧ ((emitEntities ctr y es).1.filter Cell.isEdge).length
        = (es.map fun e => (standaloneFields e.fields).length
            + (groupsOf e.fields).length + (groupedFields e.fields).length).sum) := by
  induction es with
  | nil => intro ctr y; simp [emitEntities]
  | cons e rest ih =>
      intro ctr y
      obtain ⟨e1, e2⟩ := emitEntity_counts ctr y e
      obtain ⟨ih1, ih2⟩ := ih (emitEntity ctr y e).2.1 (emitEntity ctr y e).2.2
      constructor <;>
        simp [emitEntities, List.filter_append, e1, e2, ih1, ih2]

/-- The legend labels contribute no entity nodes and no edges. -/
theorem legendAux_no_entity (specs : List (String × Int × Style)) : ∀ ctr x,
    ((legendAux ctr x specs).filter isEntityNode = []
      ∧ (legendAux ctr x specs).filter Cell.isEdge = []) := by
  induction specs with
  | nil => intro ctr x; simp [legendAux]
  | cons s rest ih =>
      intro ctr x
      obtain ⟨ih1, ih2⟩ := ih (ctr + 1) (x - (s.2.1 + LABEL_GAP))
      constructor <;>
      · cases s with
        | mk text wst =>
            cases wst with
            | mk w st =>
                simp [legendAux, List.filter_cons, isEntityNode, Cell.isEdge, ih1, ih2]

/-- Claim C1 (amended): for every data model, the number of entity-derived
diagram nodes emitted by `generate_drawio` (entity headers, standalone field
boxes, group boxes and expanded group members — not counting the fixed
container box, the four legend labels and the decorative lookup icons)
equals #BusinessEntities + #standalone fields + #distinct field groups
+ #grouped fields, and the number of edges equals that node count minus
#BusinessEntities: every node except the headers carries exactly one edge
to the structure above it. -/
theorem layout_node_edge_counts (m : DataModel) :
    entityNodeCount (generate_drawio m)
      = numBusinessEntities m + standaloneFieldCount m + fieldGroupCount m
        + groupedFieldCount m
    ∧ edgeCount (generate_drawio m)
      = entityNodeCount (generate_drawio m) - numBusinessEntities m := by
  obtain ⟨h1, h2⟩ := emitEntities_counts (businessEntities m) 7 FIELD_Y_START
  obtain ⟨l1, l2⟩ := legendAux_no_entity label_specs.reverse 3
    (CONTAINER_X + (max 729 (EXPANDED_X + EXPANDED_WIDTH + 50 - CONTAINER_X)) - LABEL_PADDING)
  have hN : entityNodeCount (generate_drawio m)
      = ((businessEntities m).map fun e => 1 + (standaloneFields e.fields).length
          + (groupsOf e.fields).length + (groupedFields e.fields).length).sum := by
    unfold entityNodeCount generate_drawio legendCells
    simp only [businessEntities] at h1
    simp [List.filter_cons, List.filter_append, isEntityNode, l1, h1, businessEntities]
  have hE : edgeCount (generate_drawio m)
      = ((businessEntities m).map fun e => (standaloneFields e.fields).length
          + (groupsOf e.fields).length + (groupedFields e.fields).length).sum := by
    unfold edgeCount generate_drawio legendCells
    simp only [businessEntities] at h2
    simp [List.filter_cons, List.filter_append, Cell.isEdge, l2, h2, businessEntities]
  have hsplitN : ((businessEntities m).map fun e => 1 + (standaloneFields e.fields).length
        + (groupsOf e.fields).length + (groupedFields e.fields).length).sum
      = numBusinessEntities m + standaloneFieldCount m + fieldGroupCount m
        + groupedFieldCount m := by
    unfold numBusinessEntities standaloneFieldCount fieldGroupCount groupedFieldCount
    have e1 : ((businessEntities m).map fun e => 1 + (standaloneFields e.fields).length
          + (groupsOf e.fields).length + (groupedFields e.fields).length).sum
        = ((businessEntities m).map fun e => (1 + (standaloneFields e.fields).length
            + (groupsOf e.fields).length) + (groupedFields e.fields).length).sum := by
      apply congrArg
      apply List.map_congr_left
      intro e _
      omega
    rw [e1, sum_map_add_distrib]
    have e2 : ((businessEntities m).map fun e => 1 + (standaloneFields e.fields).length
          + (groupsOf e.fields).length).sum
        = ((businessEntities m).map fun e => (1 + (standaloneFields e.fields).length)
            + (groupsOf e.fields).length).sum := by
      apply congrArg
      apply List.map_congr_left
      intro e _
      omega
    rw [e2, sum_map_add_distrib, sum_map_add_distrib, sum_map_one]
    have e3 : ((businessEntities m).map fun e => (groupsOf e.fields).length).sum
        = ((businessEntities m).map fun e => (groupNames e.fields).length).sum := by
      apply congrArg
      apply List.map_congr_left
      intro e _
      simp [groupsOf]
    rw [e3]
  have hsplitE : ((businessEntities m).map fun e => (standaloneFields e.fields).length
        + (groupsOf e.fields).length + (groupedFields e.fields).length).sum
      = standaloneFieldCount m + fieldGroupCount m + groupedFieldCount m := by
    unfold standaloneFieldCount fieldGroupCount groupedFieldCount
    have e1 : ((businessEntities m).map fun e => (standaloneFields e.fields).length
          + (groupsOf e.fields).length + (groupedFields e.fields).length).sum
        = ((businessEntities m).map fun e => ((standaloneFields e.fields).length
            + (groupsOf e.fields).length) + (groupedFields e.fields).length).sum := by
      apply congrArg
      apply List.map_congr_left
      intro e _
      omega
    rw [e1, sum_map_add_distrib, sum_map_add_distrib]
    have e3 : ((businessEntities m).map fun e => (groupsOf e.fields).length).sum
        = ((businessEntities m).map fun e => (groupNames e.fields).length).sum := by
      apply congrArg
      apply List.map_congr_left
      intro e _
      simp [groupsOf]
    rw [e3]
  constructor
  · rw [hN, hsplitN]
  · rw [hE, hsplitE, hN, hsplitN]
    omega

/-- Claim C1 counterexample: on scenario A (one BusinessEntity, 2 standalone
fields, 1 group of 3 fields) the formula predicts 7 nodes, but
`generate_drawio` emits 12 vertex cells (the 7 entity-derived nodes plus the
container box and the four legend labels); the edge count is 6. -/
theorem scenarioA_vertex_count :
    vertexCount (generate_drawio scenarioA) = 12
    ∧ edgeCount (generate_drawio scenarioA) = 6
    ∧ ¬ vertexCount (generate_drawio scenarioA) = 1 + 2 + 1 + 3 := by
  refine ⟨by decide, by decide, by decide⟩

/-- Claim C6: the diagram depends only on the BusinessEntity entities —
dropping every ReferenceEntity (or any entity of any other type) from the
model leaves the generated document unchanged, cell for cell; hence no
node of the document is ever emitted for a ReferenceEntity or its fields.
(`generate_drawio` filters to `type == 'BusinessEntity'` first, and every
later step reads only that filtered list.) -/
theorem reference_entities_excluded (m : DataModel) :
    generate_drawio { m with entities := m.entities.filter fun e => e.type = "BusinessEntity" }
      = generate_drawio m := by
  unfold generate_drawio
  simp [List.filter_filter]

/- Vertical-cursor lemmas for the field rows. -/

theorem emitStandalone_finalY (eid : Nat) (fs : List Field) : ∀ ctr y,
    (emitStandalone eid ctr y fs).2.2 = y + (fs.length : Int) * FIELD_SPACING := by
  induction fs with
  | nil => intro ctr y; simp [emitStandalone]
  | cons f t ih =>
      intro ctr y
      by_cases hl : f.isLookup <;>
        · simp [emitStandalone, hl, ih]
          ring

theorem emitGroups_finalY_ge (eid : Nat) (gl : List (String × List Field)) : ∀ ctr y,
    y ≤ (emitGroups eid ctr y gl).2.2 := by
  induction gl with
  | nil => intro ctr y; simp [emitGroups]
  | cons p rest ih =>
      intro ctr y
      have h1 : (0 : Int) ≤ ((max 1 p.2.length : Nat) : Int) * FIELD_SPACING := by
        have : (0 : Int) ≤ ((max 1 p.2.length : Nat) : Int) := Int.natCast_nonneg _
        have hFS : (0 : Int) ≤ FIELD_SPACING := by norm_num [FIELD_SPACING]
        positivity
      have h2 := ih (emitGroupBlock eid ctr y p.1 p.2).2
        (y + ((max 1 p.2.length : Nat) : Int) * FIELD_SPACING)
      simp only [emitGroups]
      omega

theorem emitEntity_finalY_ge (ctr : Nat) (y : Int) (e : Entity) :
    y ≤ (emitEntity ctr y e).2.2 := by
  have h1 := emitStandalone_finalY ctr (standaloneFields e.fields) (ctr + 1) y
  have h2 := emitGroups_finalY_ge ctr (groupsOf e.fields)
    (emitStandalone ctr (ctr + 1) y (standaloneFields e.fields)).2.1
    (emitStandalone ctr (ctr + 1) y (standaloneFields e.fields)).2.2
  have h3 : (0 : Int) ≤ ((standaloneFields e.fields).length : Int) * FIELD_SPACING := by
    have : (0 : Int) ≤ ((standaloneFields e.fields).length : Int) := Int.natCast_nonneg _
    have hFS : (0 : Int) ≤ FIELD_SPACING := by norm_num [FIELD_SPACING]
    positivity
  simp only [emitEntity]
  omega

theorem emitEntities_finalY_ge (es : List Entity) : ∀ ctr y,
    y ≤ (emitEntities ctr y es).2.2 := by
  induction es with
  | nil => intro ctr y; simp [emitEntities]
  | cons e rest ih =>
      intro ctr y
      have h1 := emitEntity_finalY_ge ctr y e
      have h2 := ih (emitEntity ctr y e).2.1 (emitEntity ctr y e).2.2
      simp only [emitEntities]
      omega

theorem emitStandalone_rowY (eid : Nat) (fs : List Field) : ∀ ctr y c,
    c ∈ (emitStandalone eid ctr y fs).1 → rowCell c = true → y ≤ cellY c := by
  induction fs with
  | nil => intro ctr y c hc; simp [emitStandalone] at hc
  | cons f t ih =>
      intro ctr y c hc hrow
      have hFS : (0 : Int) < FIELD_SPACING := by norm_num [FIELD_SPACING]
      by_cases hl : f.isLookup
      · simp [emitStandalone, hl] at hc
        rcases hc with h | h | h | h
        · subst h; simp [cellY]
        · subst h; simp [rowCell] at hrow
        · subst h
          simp only [cellY]
          norm_num [FIELD_HEIGHT, LOOKUP_ICON_SIZE]
        · have := ih (ctr + 3) (y + FIELD_SPACING) c h hrow
          omega
      · simp [emitStandalone, hl] at hc
        rcases hc with h | h | h
        · subst h; simp [cellY]
        · subst h; simp [rowCell] at hrow
        · have := ih (ctr + 2) (y + FIELD_SPACING) c h hrow
          omega

theorem emitExpanded_rowY (gid : Nat) (fs : List Field) : ∀ ctr y c,
    c ∈ (emitExpanded gid ctr y fs).1 → rowCell c = true → y ≤ cellY c := by
  induction fs with
  | nil => intro ctr y c hc; simp [emitExpanded] at hc
  | cons f t ih =>
      intro ctr y c hc hrow
      have hFS : (0 : Int) < FIELD_SPACING := by norm_num [FIELD_SPACING]
      by_cases hl : f.isLookup
      · simp [emitExpanded, hl] at hc
        rcases hc with h | h | h | h
        · subst h; simp [cellY]
        · subst h; simp [rowCell] at hrow
        · subst h
          simp only [cellY]
          norm_num [FIELD_HEIGHT, LOOKUP_ICON_SIZE]
        · have := ih (ctr + 3) (y + FIELD_SPACING) c h hrow
          omega
      · simp [emitExpanded, hl] at hc
        rcases hc with h | h | h
        · subst h; simp [cellY]
        · subst h; simp [rowCell] at hrow
        · have := ih (ctr + 2) (y + FIELD_SPACING) c h hrow
          omega

theorem emitGroupBlock_rowY (eid ctr : Nat) (y : Int) (g : String) (gfs : List Field) :
    ∀ c ∈ (emitGroupBlock eid ctr y g gfs).1, rowCell c = true → y ≤ cellY c := by
  intro c hc hrow
  simp [emitGroupBlock] at hc
  rcases hc with h | h | h
  · subst h; simp [cellY]
  · subst h; simp [rowCell] at hrow
  · exact emitExpanded_rowY ctr gfs (ctr + 2) y c h hrow

theorem emitGroups_rowY (eid : Nat) (gl : List (String × List Field)) : ∀ ctr y c,
    c ∈ (emitGroups eid ctr y gl).1 → rowCell c = true → y ≤ cellY c := by
  induction gl with
  | nil => intro ctr y c hc; simp [emitGroups] at hc
  | cons p rest ih =>
      intro ctr y c hc hrow
      have hadv : (0 : Int) ≤ ((max 1 p.2.length : Nat) : Int) * FIELD_SPACING := by
        have : (0 : Int) ≤ ((max 1 p.2.length : Nat) : Int) := Int.natCast_nonneg _
        have hFS : (0 : Int) ≤ FIELD_SPACING := by norm_num [FIELD_SPACING]
        positivity
      simp only [emitGroups, List.mem_append] at hc
      rcases hc with h | h
      · exact emitGroupBlock_rowY eid ctr y p.1 p.2 c h hrow
      · have := ih (emitGroupBlock eid ctr y p.1 p.2).2
          (y + ((max 1 p.2.length : Nat) : Int) * FIELD_SPACING) c h hrow
        omega

theorem emitEntity_rowY (ctr : Nat) (y : Int) (e : Entity) :
    ∀ c ∈ (emitEntity ctr y e).1, rowCell c = true → y ≤ cellY c := by
  intro c hc hrow
  have h1 := emitStandalone_finalY ctr (standaloneFields e.fields) (ctr + 1) y
  have h3 : (0 : Int) ≤ ((standaloneFields e.fields).length : Int) * FIELD_SPACING := by
    have : (0 : Int) ≤ ((standaloneFields e.fields).length : Int) := Int.natCast_nonneg _
    have hFS : (0 : Int) ≤ FIELD_SPACING := by norm_num [FIELD_SPACING]
    positivity
  simp only [emitEntity, List.mem_cons, List.mem_append] at hc
  rcases hc with (h | h) | h
  · subst h; simp [rowCell] at hrow
  · exact emitStandalone_rowY ctr (standaloneFields e.fields) (ctr + 1) y c h hrow
  · have := emitGroups_rowY ctr (groupsOf e.fields)
      (emitStandalone ctr (ctr + 1) y (standaloneFields e.fields)).2.1
      (emitStandalone ctr (ctr + 1) y (standaloneFields e.fields)).2.2 c h hrow
    omega

theorem emitEntities_rowY (es : List Entity) : ∀ ctr y c,
    c ∈ (emitEntities ctr y es).1 → rowCell c = true → y ≤ cellY c := by
  induction es with
  | nil => intro ctr y c hc; simp [emitEntities] at hc
  | cons e rest ih =>
      intro ctr y c hc hrow
      have hfin := emitEntity_finalY_ge ctr y e
      simp only [emitEntities, List.mem_append] at hc
      rcases hc with h | h
      · exact emitEntity_rowY ctr y e c h hrow
      · have := ih (emitEntity ctr y e).2.1 (emitEntity ctr y e).2.2 c h hrow
        omega

/-- Claim C5 (amended): after the field-group loop emits a group node with N
member fields at cursor position y, the cursor advances by
`max(1, N) * FIELD_SPACING`, so every cursor-positioned cell emitted later —
the remaining groups of the entity with their expanded members and icons,
and all standalone fields, groups and expanded members of the following
entities — sits at vertical position ≥ y + N * FIELD_SPACING.  (Entity
header nodes are NOT cursor-positioned: every header sits at the fixed
y = ENTITY_Y_START = 127, which is why the claim as stated fails — see the
counterexample.) -/
theorem group_cursor_advance (eid ctr : Nat) (y : Int) (g : String) (gfs : List Field)
    (rest : List (String × List Field)) (ctr2 : Nat) (es : List Entity) :
    (emitGroups eid ctr y ((g, gfs) :: rest)).1
      = (emitGroupBlock eid ctr y g gfs).1
        ++ (emitGroups eid (emitGroupBlock eid ctr y g gfs).2
            (y + ((max 1 gfs.length : Nat) : Int) * FIELD_SPACING) rest).1
    ∧ (emitGroupBlock eid ctr y g gfs).1.head? = some
        ⟨ctr, .vertex .groupNode g .fieldGroup false FIELD_GROUP_X y
          FIELD_GROUP_WIDTH FIELD_HEIGHT⟩
    ∧ (∀ c ∈ (emitGroups eid (emitGroupBlock eid ctr y g gfs).2
          (y + ((max 1 gfs.length : Nat) : Int) * FIELD_SPACING) rest).1,
        rowCell c = true → y + (gfs.length : Int) * FIELD_SPACING ≤ cellY c)
    ∧ (∀ c ∈ (emitEntities ctr2 (emitGroups eid ctr y ((g, gfs) :: rest)).2.2 es).1,
        rowCell c = true → y + (gfs.length : Int) * FIELD_SPACING ≤ cellY c) := by
  have hmax : (gfs.length : Int) * FIELD_SPACING
      ≤ ((max 1 gfs.length : Nat) : Int) * FIELD_SPACING := by
    have h1 : (gfs.length : Int) ≤ ((max 1 gfs.length : Nat) : Int) := by
      have : gfs.length ≤ max 1 gfs.length := le_max_right 1 gfs.length
      exact_mod_cast this
    have hFS : (0 : Int) ≤ FIELD_SPACING := by norm_num [FIELD_SPACING]
    exact mul_le_mul_of_nonneg_right h1 hFS
  refine ⟨rfl, rfl, ?_, ?_⟩
  · intro c hc hrow
    have := emitGroups_rowY eid rest (emitGroupBlock eid ctr y g gfs).2
      (y + ((max 1 gfs.length : Nat) : Int) * FIELD_SPACING) c hc hrow
    omega
  · intro c hc hrow
    have hfin : y + ((max 1 gfs.length : Nat) : Int) * FIELD_SPACING
        ≤ (emitGroups eid ctr y ((g, gfs) :: rest)).2.2 := by
      have := emitGroups_finalY_ge eid rest (emitGroupBlock eid ctr y g gfs).2
        (y + ((max 1 gfs.length : Nat) : Int) * FIELD_SPACING)
      simpa [emitGroups] using this
    have := emitEntities_rowY es ctr2 (emitGroups eid ctr y ((g, gfs) :: rest)).2.2 c hc hrow
    omega

theorem group_cursor_advance_witness :
    (165 : Int) + ((1 : Nat) : Int) * FIELD_SPACING
      ≤ cellY ⟨14, .vertex .groupNode "Addr" .fieldGroup false FIELD_GROUP_X 193
          FIELD_GROUP_WIDTH FIELD_HEIGHT⟩ := by
  have h := group_cursor_advance 0 10 165 "Phone"
    [{ name := "mobile", fieldGroup := some "Phone" }]
    [("Addr", [{ name := "street", fieldGroup := some "Addr" }])] 50 []
  have hm := h.2.2.1
    ⟨14, .vertex .groupNode "Addr" .fieldGroup false FIELD_GROUP_X 193
      FIELD_GROUP_WIDTH FIELD_HEIGHT⟩ (by decide) (by decide)
  simpa using hm

/-- Claim C5 counterexample: in `twoEntityModel` the group `G` (2 member
fields) is emitted at y = 165, so the claim demands every later node sit at
y ≥ 165 + 2*28 = 221; but the second entity's header node, emitted later
(document position 14 > 8), sits at the fixed y = 127 < 221. -/
theorem group_overlap_counterexample :
    (generate_drawio twoEntityModel).cells.get? 8
      = some ⟨8, .vertex .groupNode "G" .fieldGroup false FIELD_GROUP_X 165
          FIELD_GROUP_WIDTH FIELD_HEIGHT⟩
    ∧ (generate_drawio twoEntityModel).cells.get? 14
      = some ⟨14, .vertex .header "E2" .businessEntity false ENTITY_X ENTITY_Y_START
          ENTITY_WIDTH ENTITY_HEIGHT⟩
    ∧ ¬ ((165 : Int) + 2 * FIELD_SPACING
          ≤ cellY ⟨14, .vertex .header "E2" .businessEntity false ENTITY_X ENTITY_Y_START
              ENTITY_WIDTH ENTITY_HEIGHT⟩) := by
  refine ⟨by decide, by decide, by decide⟩

/- Consecutive-id lemmas: every emission stage allocates its cell ids
consecutively from the counter it receives, and returns the counter just
past its last cell. -/

theorem consecFrom_append_intro (a : List Cell) : ∀ (b : List Cell) (s : Nat),
    consecFrom s a → consecFrom (s + a.length) b → consecFrom s (a ++ b) := by
  induction a with
  | nil => intro b s _ hb; simpa using hb
  | cons c rest ih =>
      intro b s ha hb
      obtain ⟨h1, h2⟩ := ha
      refine ⟨h1, ih b (s + 1) h2 ?_⟩
      have e : s + (c :: rest).length = s + 1 + rest.length := by
        simp
        omega
      rw [e] at hb
      exact hb

theorem consecFrom_mem_ge (l : List Cell) : ∀ s, consecFrom s l →
    ∀ x ∈ l.map Cell.id, s ≤ x := by
  induction l with
  | nil => intro s _ x hx; simp at hx
  | cons c rest ih =>
      intro s hc x hx
      obtain ⟨h1, h2⟩ := hc
      simp only [List.map_cons, List.mem_cons] at hx
      rcases hx with h | h
      · omega
      · have := ih (s + 1) h2 x h
        omega

theorem consecFrom_nodup (l : List Cell) : ∀ s, consecFrom s l →
    (l.map Cell.id).Nodup := by
  induction l with
  | nil => intro s _; simp
  | cons c rest ih =>
      intro s hc
      obtain ⟨h1, h2⟩ := hc
      rw [List.map_cons, List.nodup_cons]
      refine ⟨?_, ih (s + 1) h2⟩
      intro hmem
      have := consecFrom_mem_ge rest (s + 1) h2 c.id hmem
      omega

theorem emitStandalone_consec (eid : Nat) (fs : List Field) : ∀ ctr y,
    consecFrom ctr (emitStandalone eid ctr y fs).1
    ∧ (emitStandalone eid ctr y fs).2.1 = ctr + (emitStandalone eid ctr y fs).1.length := by
  induction fs with
  | nil => intro ctr y; simp [emitStandalone, consecFrom]
  | cons f t ih =>
      intro ctr y
      by_cases hl : f.isLookup
      · obtain ⟨ih1, ih2⟩ := ih (ctr + 3) (y + FIELD_SPACING)
        constructor
        · simp only [emitStandalone, hl, if_true, List.singleton_append]
          exact ⟨rfl, rfl, rfl, ih1⟩
        · simp [emitStandalone, hl, ih2]
          omega
      · obtain ⟨ih1, ih2⟩ := ih (ctr + 2) (y + FIELD_SPACING)
        constructor
        · simp only [emitStandalone, hl, if_false, List.nil_append]
          exact ⟨rfl, rfl, ih1⟩
        · simp [emitStandalone, hl, ih2]
          omega

theorem emitExpanded_consec (gid : Nat) (fs : List Field) : ∀ ctr y,
    consecFrom ctr (emitExpanded gid ctr y fs).1
    ∧ (emitExpanded gid ctr y fs).2.1 = ctr + (emitExpanded gid ctr y fs).1.length := by
  induction fs with
  | nil => intro ctr y; simp [emitExpanded, consecFrom]
  | cons f t ih =>
      intro ctr y
      by_cases hl : f.isLookup
      · obtain ⟨ih1, ih2⟩ := ih (ctr + 3) (y + FIELD_SPACING)
        constructor
        · simp only [emitExpanded, hl, if_true, List.singleton_append]
          exact ⟨rfl, rfl, rfl, ih1⟩
        · simp [emitExpanded, hl, ih2]
          omega
      · obtain ⟨ih1, ih2⟩ := ih (ctr + 2) (y + FIELD_SPACING)
        constructor
        · simp only [emitExpanded, hl, if_false, List.nil_append]
          exact ⟨rfl, rfl, ih1⟩
        · simp [emitExpanded, hl, ih2]
          omega

theorem emitGroupBlock_consec (eid ctr : Nat) (y : Int) (g : String) (gfs : List Field) :
    consecFrom ctr (emitGroupBlock eid ctr y g gfs).1
    ∧ (emitGroupBlock eid ctr y g gfs).2 = ctr + (emitGroupBlock eid ctr y g gfs).1.length := by
  obtain ⟨h1, h2⟩ := emitExpanded_consec ctr gfs (ctr + 2) y
  constructor
  · simp only [emitGroupBlock]
    exact ⟨rfl, rfl, h1⟩
  · simp [emitGroupBlock, h2]
    omega

theorem emitGroups_consec (eid : Nat) (gl : List (String × List Field)) : ∀ ctr y,
    consecFrom ctr (emitGroups eid ctr y gl).1
    ∧ (emitGroups eid ctr y gl).2.1 = ctr + (emitGroups eid ctr y gl).1.length := by
  induction gl with
  | nil => intro ctr y; simp [emitGroups, consecFrom]
  | cons p rest ih =>
      intro ctr y
      obtain ⟨b1, b2⟩ := emitGroupBlock_consec eid ctr y p.1 p.2
      obtain ⟨ih1, ih2⟩ := ih (emitGroupBlock eid ctr y p.1 p.2).2
        (y + ((max 1 p.2.length : Nat) : Int) * FIELD_SPACING)
      constructor
      · simp only [emitGroups]
        apply consecFrom_append_intro _ _ _ b1
        rw [← b2]
        exact ih1
      · simp only [emitGroups, List.length_append]
        rw [ih2, b2]
        omega

theorem emitEntity_consec (ctr : Nat) (y : Int) (e : Entity) :
    consecFrom ctr (emitEntity ctr y e).1
    ∧ (emitEntity ctr y e).2.1 = ctr + (emitEntity ctr y e).1.length := by
  obtain ⟨s1, s2⟩ := emitStandalone_consec ctr (standaloneFields e.fields) (ctr + 1) y
  obtain ⟨g1, g2⟩ := emitGroups_consec ctr (groupsOf e.fields)
    (emitStandalone ctr (ctr + 1) y (standaloneFields e.fields)).2.1
    (emitStandalone ctr (ctr + 1) y (standaloneFields e.fields)).2.2
  constructor
  · simp only [emitEntity]
    apply consecFrom_append_intro
    · exact ⟨rfl, s1⟩
    · have e1 : ctr + (⟨ctr, .vertex .header e.name .businessEntity false
          ENTITY_X ENTITY_Y_START ENTITY_WIDTH ENTITY_HEIGHT⟩
          :: (emitStandalone ctr (ctr + 1) y (standaloneFields e.fields)).1).length
          = (emitStandalone ctr (ctr + 1) y (standaloneFields e.fields)).2.1 := by
        simp [s2]
        omega
      rw [e1]
      exact g1
  · simp only [emitEntity, List.length_append, List.length_cons]
    rw [g2, s2]
    omega

theorem emitEntities_consec (es : List Entity) : ∀ ctr y,
    consecFrom ctr (emitEntities ctr y es).1
    ∧ (emitEntities ctr y es).2.1 = ctr + (emitEntities ctr y es).1.length := by
  induction es with
  | nil => intro ctr y; simp [emitEntities, consecFrom]
  | cons e rest ih =>
      intro ctr y
      obtain ⟨e1, e2⟩ := emitEntity_consec ctr y e
      obtain ⟨ih1, ih2⟩ := ih (emitEntity ctr y e).2.1 (emitEntity ctr y e).2.2
      constructor
      · simp only [emitEntities]
        apply consecFrom_append_intro _ _ _ e1
        rw [← e2]
        exact ih1
      · simp only [emitEntities, List.length_append]
        rw [ih2, e2]
        omega

theorem legendAux_consec (specs : List (String × Int × Style)) : ∀ ctr x,
    consecFrom ctr (legendAux ctr x specs)
    ∧ (legendAux ctr x specs).length = specs.length := by
  induction specs with
  | nil => intro ctr x; simp [legendAux, consecFrom]
  | cons s rest ih =>
      intro ctr x
      rcases s with ⟨text, w, st⟩
      obtain ⟨ih1, ih2⟩ := ih (ctr + 1) (x - (w + LABEL_GAP))
      exact ⟨⟨rfl, ih1⟩, by simp [legendAux, ih2]⟩

/- Edge well-formedness lemmas: every emission stage only creates edges
whose source and target are ids of vertices already present. -/

theorem vertexIdsAcc_sub (l : List Cell) : ∀ vs x, x ∈ vs → x ∈ vertexIdsAcc vs l := by
  induction l with
  | nil => intro vs x hx; simpa [vertexIdsAcc] using hx
  | cons c rest ih =>
      intro vs x hx
      simp only [vertexIdsAcc]
      by_cases hv : c.isVertex
      · simp only [hv, if_true]
        exact ih _ x (List.mem_cons_of_mem _ hx)
      · simp only [hv, Bool.false_eq_true, if_false]
        exact ih _ x hx

theorem goodFrom_append_intro (a : List Cell) : ∀ (b : List Cell) (vs : List Nat),
    goodFrom vs a = true → goodFrom (vertexIdsAcc vs a) b = true →
    goodFrom vs (a ++ b) = true := by
  induction a with
  | nil => intro b vs _ hb; simpa [vertexIdsAcc] using hb
  | cons c rest ih =>
      intro b vs ha hb
      rcases c with ⟨cid, cdata⟩
      cases cdata with
      | root =>
          simp only [goodFrom, List.cons_append] at ha ⊢
          simp only [vertexIdsAcc, Cell.isVertex, Bool.false_eq_true, if_false] at hb
          exact ih b vs ha hb
      | vertex k v st lp x y w h =>
          simp only [goodFrom, List.cons_append] at ha ⊢
          simp only [vertexIdsAcc, Cell.isVertex, if_true] at hb
          exact ih b _ ha hb
      | edge s t arrow =>
          simp only [goodFrom, List.cons_append, Bool.and_eq_true] at ha ⊢
          refine ⟨ha.1, ?_⟩
          simp only [vertexIdsAcc, Cell.isVertex, Bool.false_eq_true, if_false] at hb
          exact ih b vs ha.2 hb

theorem goodFrom_edgefree (l : List Cell) (hfree : ∀ c ∈ l, c.isEdge = false) :
    ∀ vs, goodFrom vs l = true := by
  induction l with
  | nil => intro vs; simp [goodFrom]
  | cons c rest ih =>
      intro vs
      have hrest : ∀ c ∈ rest, c.isEdge = false :=
        fun c hc => hfree c (List.mem_cons_of_mem _ hc)
      have hc := hfree c (List.mem_cons_self c rest)
      rcases c with ⟨cid, cdata⟩
      cases cdata with
      | root => simpa [goodFrom] using ih hrest vs
      | vertex k v st lp x y w h => simpa [goodFrom] using ih hrest _
      | edge s t arrow => simp [Cell.isEdge] at hc

theorem legendAux_edgefree (specs : List (String × Int × Style)) : ∀ ctr x,
    ∀ c ∈ legendAux ctr x specs, c.isEdge = false := by
  induction specs with
  | nil => intro ctr x c hc; simp [legendAux] at hc
  | cons s rest ih =>
      intro ctr x c hc
      rcases s with ⟨text, w, st⟩
      simp only [legendAux, List.mem_cons] at hc
      rcases hc with h | h
      · subst h; rfl
      · exact ih (ctr + 1) (x - (w + LABEL_GAP)) c h

theorem contains_of_mem {x : Nat} {vs : List Nat} (h : x ∈ vs) :
    vs.contains x = true := by
  simpa using h

theorem emitStandalone_good (eid : Nat) (fs : List Field) : ∀ ctr y vs,
    eid ∈ vs → goodFrom vs (emitStandalone eid ctr y fs).1 = true := by
  induction fs with
  | nil => intro ctr y vs _; simp [emitStandalone, goodFrom]
  | cons f t ih =>
      intro ctr y vs hmem
      by_cases hl : f.isLookup
      · simp only [emitStandalone, hl, if_true, List.singleton_append]
        simp only [goodFrom, Bool.and_eq_true]
        refine ⟨⟨contains_of_mem (List.mem_cons_of_mem _ hmem),
          contains_of_mem (List.mem_cons_self _ _)⟩, ?_⟩
        exact ih (ctr + 3) (y + FIELD_SPACING) _
          (List.mem_cons_of_mem _ (List.mem_cons_of_mem _ hmem))
      · simp only [emitStandalone, hl, Bool.false_eq_true, if_false, List.nil_append]
        simp only [goodFrom, Bool.and_eq_true]
        refine ⟨⟨contains_of_mem (List.mem_cons_of_mem _ hmem),
          contains_of_mem (List.mem_cons_self _ _)⟩, ?_⟩
        exact ih (ctr + 2) (y + FIELD_SPACING) _ (List.mem_cons_of_mem _ hmem)

theorem emitExpanded_good (gid : Nat) (fs : List Field) : ∀ ctr y vs,
    gid ∈ vs → goodFrom vs (emitExpanded gid ctr y fs).1 = true := by
  induction fs with
  | nil => intro ctr y vs _; simp [emitExpanded, goodFrom]
  | cons f t ih =>
      intro ctr y vs hmem
      by_cases hl : f.isLookup
      · simp only [emitExpanded, hl, if_true, List.singleton_append]
        simp only [goodFrom, Bool.and_eq_true]
        refine ⟨⟨contains_of_mem (List.mem_cons_of_mem _ hmem),
          contains_of_mem (List.mem_cons_self _ _)⟩, ?_⟩
        exact ih (ctr + 3) (y + FIELD_SPACING) _
          (List.mem_cons_of_mem _ (List.mem_cons_of_mem _ hmem))
      · simp only [emitExpanded, hl, Bool.false_eq_true, if_false, List.nil_append]
        simp only [goodFrom, Bool.and_eq_true]
        refine ⟨⟨contains_of_mem (List.mem_cons_of_mem _ hmem),
          contains_of_mem (List.mem_cons_self _ _)⟩, ?_⟩
        exact ih (ctr + 2) (y + FIELD_SPACING) _ (List.mem_cons_of_mem _ hmem)

theorem emitGroupBlock_good (eid ctr : Nat) (y : Int) (g : String) (gfs : List Field)
    (vs : List Nat) (hmem : eid ∈ vs) :
    goodFrom vs (emitGroupBlock eid ctr y g gfs).1 = true := by
  simp only [emitGroupBlock]
  simp only [goodFrom, Bool.and_eq_true]
  refine ⟨⟨contains_of_mem (List.mem_cons_of_mem _ hmem),
    contains_of_mem (List.mem_cons_self _ _)⟩, ?_⟩
  exact emitExpanded_good ctr gfs (ctr + 2) y _ (List.mem_cons_self _ _)

theorem emitGroups_good (eid : Nat) (gl : List (String × List Field)) : ∀ ctr y vs,
    eid ∈ vs → goodFrom vs (emitGroups eid ctr y gl).1 = true := by
  induction gl with
  | nil => intro ctr y vs _; simp [emitGroups, goodFrom]
  | cons p rest ih =>
      intro ctr y vs hmem
      simp only [emitGroups]
      apply goodFrom_append_intro
      · exact emitGroupBlock_good eid ctr y p.1 p.2 vs hmem
      · exact ih _ _ _ (vertexIdsAcc_sub _ vs eid hmem)

theorem emitEntity_good (ctr : Nat) (y : Int) (e : Entity) (vs : List Nat) :
    goodFrom vs (emitEntity ctr y e).1 = true := by
  simp only [emitEntity]
  apply goodFrom_append_intro
  · exact emitStandalone_good ctr (standaloneFields e.fields) (ctr + 1) y (ctr :: vs)
      (List.mem_cons_self _ _)
  · apply emitGroups_good
    exact vertexIdsAcc_sub _ (ctr :: vs) ctr (List.mem_cons_self _ _)

theorem emitEntities_good (es : List Entity) : ∀ ctr y vs,
    goodFrom vs (emitEntities ctr y es).1 = true := by
  induction es with
  | nil => intro ctr y vs; simp [emitEntities, goodFrom]
  | cons e rest ih =>
      intro ctr y vs
      simp only [emitEntities]
      apply goodFrom_append_intro
      · exact emitEntity_good ctr y e vs
      · exact ih _ _ _

/-- Claim C10: in every generated document the cells carry the consecutive
ids 0, 1, 2, ... in emission order (the two root cells, then the container
at the counter's start value 2, then the legend and the entity cells), so
all cell identifiers are pairwise distinct; and every edge's `source` and
`target` name the id of a vertex cell emitted earlier in the same
document. -/
theorem cell_ids_wellformed (m : DataModel) :
    consecFrom 0 (generate_drawio m).cells
    ∧ ((generate_drawio m).cells.map Cell.id).Nodup
    ∧ goodFrom [] (generate_drawio m).cells = true := by
  obtain ⟨lc, ll⟩ := legendAux_consec label_specs.reverse 3
    (CONTAINER_X + (max 729 (EXPANDED_X + EXPANDED_WIDTH + 50 - CONTAINER_X)) - LABEL_PADDING)
  obtain ⟨ec, _⟩ := emitEntities_consec (businessEntities m) 7 FIELD_Y_START
  have hll : label_specs.reverse.length = 4 := rfl
  have hconsec : consecFrom 0 (generate_drawio m).cells := by
    unfold generate_drawio legendCells
    refine ⟨rfl, rfl, rfl, ?_⟩
    apply consecFrom_append_intro
    · exact lc
    · rw [ll, hll]
      simpa [businessEntities] using ec
  refine ⟨hconsec, consecFrom_nodup _ 0 hconsec, ?_⟩
  unfold generate_drawio legendCells
  simp only [goodFrom]
  apply goodFrom_append_intro
  · apply goodFrom_edgefree
    apply legendAux_edgefree
  · apply emitEntities_good

end BRD
